import Mathlib

/-!
Verification development for the OPSIGHT repository (ICS operator-behavior
data model plus CSV bulk loader).

The development shallowly embeds the two relevant source files:

* `src/db/models.py` — the declarative schema: table shapes, foreign keys,
  declared varchar widths, and the ORM cascade-delete relationships.
* `src/load_data.py` — the chunked CSV loader: column normalization and
  validation, pandas-style type coercions, the fixed truncation table,
  row dropping, operator/session reconciliation, and per-step commits.

Database rows are plain structures, the store is a record of row lists, and
the loader is a state-passing function over a transactional wrapper
(`TxDB`) that separates committed from current (uncommitted) state exactly
where the source calls `commit()` and `rollback()`.

Scalar cells of a parsed CSV chunk are modelled by `Cell`: pandas NA is
`Cell.na`, strings are `Cell.str`, numeric values are modelled as integers
(`Cell.int`; exact float semantics are irrelevant to every property proved
here), and parsed datetimes are ticks `Cell.dt`.  The pandas string
operations used by the loader (strip, upper, slice, astype(str) with
NaN ↦ "nan") are embedded as executable functions on `String`.
-/

/-- Scalar value of one cell of a parsed CSV chunk.  `na` is pandas NA/NaN;
`dt` is a parsed datetime represented as an abstract tick count. -/
inductive Cell where
  | na  : Cell
  | str : String → Cell
  | int : Int → Cell
  | dt  : Nat → Cell
deriving DecidableEq, Repr

/-- Python `str.strip()` (also pandas `.str.strip()`): drop leading and
trailing whitespace. -/
def pyStrip (s : String) : String :=
  String.mk ((s.data.dropWhile Char.isWhitespace).reverse.dropWhile Char.isWhitespace |>.reverse)

/-- Python `str.upper()` (pandas `.str.upper()`). -/
def pyUpper (s : String) : String :=
  String.mk (s.data.map Char.toUpper)

/-- Python `s[0:n]` slicing on code points (pandas `.str.slice(0, n)`). -/
def pySlice (n : Nat) (s : String) : String :=
  String.mk (s.data.take n)

/-- Removal of the UTF-8 byte-order mark, modelling
`.str.replace("﻿", "", regex=False)` on column names. -/
def stripBOM (s : String) : String :=
  String.mk (s.data.filter (fun ch => ch ≠ Char.ofNat 0xFEFF))

/-- String of decimal digits to `Nat`; `none` when empty or non-digit. -/
def pyDigits? (s : String) : Option Nat :=
  if s.data ≠ [] ∧ s.data.all Char.isDigit then
    some (s.data.foldl (fun acc c => acc * 10 + (c.toNat - 48)) 0)
  else none

/-- Integer parse modelling `pd.to_numeric(..., errors="coerce")` on a
string cell: optional sign followed by digits, surrounding whitespace
allowed; unparsable values become NA at the call site. -/
def pyToInt? (s : String) : Option Int :=
  let t := pyStrip s
  match t.data with
  | '-' :: rest => (pyDigits? (String.mk rest)).map (fun n => -(n : Int))
  | '+' :: rest => (pyDigits? (String.mk rest)).map (fun n => (n : Int))
  | _ => (pyDigits? t).map (fun n => (n : Int))

/-- Datetime parse modelling `pd.to_datetime(..., errors="coerce")` on a
string cell.  The calendar grammar of pandas is irrelevant to the loader's
logic, so the model reads a datetime as a decimal tick count; any string
that is not one is unparsable and becomes NA at the call site. -/
def parseTimestamp? (s : String) : Option Nat :=
  pyDigits? (pyStrip s)

/-- Pandas `astype(str)` on a scalar: NA prints as `"nan"`, other values
print canonically. -/
def cellToStr : Cell → String
  | .na => "nan"
  | .str s => s
  | .int n => toString n
  | .dt t => toString t

/-- Pandas `pd.to_numeric(col, errors="coerce").astype("Int64")` on one
cell: integers pass through, parsable strings are parsed, everything else
(including NA) coerces to NA. -/
def toNumericCoerce : Cell → Cell
  | .na => .na
  | .int n => .int n
  | .dt t => .int (t : Int)
  | .str s => match pyToInt? s with
    | some n => .int n
    | none => .na

/-- Pandas `pd.to_datetime(col, errors="coerce")` on one cell: parsed
datetimes pass through, integers are epoch ticks, parsable strings are
parsed, everything else coerces to NA. -/
def toDatetimeCoerce : Cell → Cell
  | .na => .na
  | .dt t => .dt t
  | .int n => .dt n.toNat
  | .str s => match parseTimestamp? s with
    | some t => .dt t
    | none => .na

/-- Pandas `Series.unique().tolist()`: distinct values in order of first
occurrence. -/
def pdUnique {α : Type} [BEq α] (l : List α) : List α :=
  l.foldl (fun acc x => if acc.contains x then acc else acc ++ [x]) []

-- ---------------------------------------------------------------------------
-- Schema rows (src/db/models.py)
-- ---------------------------------------------------------------------------

/-- One row of the Operators table (models.py `Operators`): caller-supplied
string primary key and the rank flag. -/
structure OperatorRow where
  Operator_ID : String
  Operator_Rank : Bool
deriving DecidableEq, Repr

/-- One row of the shift_definitions table (models.py `Shift_Definitions`). -/
structure ShiftDefRow where
  shift_id : Int
  shift_name : String
deriving DecidableEq, Repr

/-- One row of the Sessions table (models.py `Sessions`).  Start/end are the
cells the loader supplies (always `Cell.dt` on the loader path). -/
structure SessionRow where
  Session_ID : Int
  Operator_ID : String
  Shift_ID : Int
  Session_Start : Cell
  Session_End : Cell
  Inactivity_Threshold_Min : Int
deriving DecidableEq, Repr

/-- One row of the Events table (models.py `Events`): autoincrement surrogate
key, the two foreign keys, and the full inserted column mapping as produced
by `DataFrame.to_dict("records")`. -/
structure EventRow where
  Event_ID : Nat
  Session_ID : Int
  Operator_ID : String
  fields : List (String × Cell)
deriving DecidableEq, Repr

/-- One row of the Session_Features table (models.py `Session_Features`);
only the keys matter for the cascade claims. -/
structure FeatureRow where
  Session_features_ID : Nat
  Session_ID : Int
deriving DecidableEq, Repr

/-- One row of the Detection table (models.py `Detection`); only the keys
matter for the cascade claims. -/
structure DetectionRow where
  Detection_ID : Nat
  Event_ID : Nat
deriving DecidableEq, Repr

/-- One row of the Alerts table (models.py `Alerts`): surrogate key plus the
three foreign keys. -/
structure AlertRow where
  Alert_ID : Nat
  Event_ID : Nat
  Session_ID : Int
  Detection_ID : Nat
deriving DecidableEq, Repr

/-- The relational store restricted to the tables the claims touch.
`next_event_id` models the Events autoincrement sequence. -/
structure DB where
  operators : List OperatorRow
  shift_defs : List ShiftDefRow
  sessions : List SessionRow
  events : List EventRow
  features : List FeatureRow
  detections : List DetectionRow
  alerts : List AlertRow
  next_event_id : Nat
deriving DecidableEq, Repr

-- ---------------------------------------------------------------------------
-- ORM cascade deletes (models.py relationship cascades)
-- ---------------------------------------------------------------------------

/-- Deleting one Event row: models.py declares
`Events.alerts = relationship(..., cascade="all, delete-orphan")`, so the
event's alerts are deleted with it. -/
def deleteEvent (d : DB) (eid : Nat) : DB :=
  { d with
    events := d.events.filter (fun e => e.Event_ID != eid)
    alerts := d.alerts.filter (fun a => a.Event_ID != eid) }

/-- Deleting one Detection row: models.py declares
`Detection.alerts = relationship(..., cascade="all, delete-orphan")`, so the
detection's alerts are deleted with it. -/
def deleteDetection (d : DB) (did : Nat) : DB :=
  { d with
    detections := d.detections.filter (fun r => r.Detection_ID != did)
    alerts := d.alerts.filter (fun a => a.Detection_ID != did) }

/-- Deleting one Session row: models.py declares cascade="all, delete-orphan"
on `Sessions.events`, `Sessions.session_features` and `Sessions.alerts`, and
the deletion of each owned event in turn cascades to that event's alerts
(`Events.alerts`).  Operators and shift_definitions have no cascade from
Sessions and are untouched. -/
def deleteSession (d : DB) (sid : Int) : DB :=
  let deadEvents := d.events.filter (fun e => e.Session_ID == sid)
  { d with
    sessions := d.sessions.filter (fun s => s.Session_ID != sid)
    events := d.events.filter (fun e => e.Session_ID != sid)
    features := d.features.filter (fun f => f.Session_ID != sid)
    alerts := d.alerts.filter
      (fun a => a.Session_ID != sid && !(deadEvents.any (fun e => e.Event_ID == a.Event_ID))) }

-- ---------------------------------------------------------------------------
-- Loader constants (src/load_data.py)
-- ---------------------------------------------------------------------------

/-- The recognized CSV columns, in source order (load_data.py `EVENTS_COLS`).
Shift is kept only to build Sessions and is excluded from the Event insert. -/
def EVENTS_COLS : List String :=
  ["Session_ID", "Operator_ID", "Timestamp", "TimeInterval", "Address",
   "FunctionCode", "CommandResponse", "ControlMode", "ControlScheme", "CRC",
   "DataLength", "InvalidFunctionCode", "InvalidDataLength", "PumpState",
   "SolenoidState", "SetPoint", "PipelinePSI", "PIDCycleTime", "PIDDeadband",
   "PIDGain", "PIDRate", "PIDReset", "deltaSetPoint", "deltaPipelinePSI",
   "deltaPIDCycleTime", "deltaPIDDeadband", "deltaPIDGain", "deltaPIDRate",
   "deltaPIDReset", "Label", "Shift"]

/-- The fixed shift-label mapping (load_data.py `SHIFT_MAP`); values match
shift_definitions.shift_id. -/
def SHIFT_MAP : List (String × Int) := [("DAY", 1), ("NIGHT", 2)]

/-- The fixed per-column truncation table (load_data.py `MAXLEN`). -/
def MAXLEN : List (String × Nat) :=
  [("Address", 50), ("CommandResponse", 50), ("ControlMode", 50),
   ("ControlScheme", 100), ("PumpState", 50), ("SolenoidState", 50),
   ("Label", 50), ("FunctionCode", 10), ("InvalidFunctionCode", 5),
   ("InvalidDataLength", 5)]

/-- Declared varchar widths of the string-typed Events columns
(models.py `Events`, `String(n)` declarations). -/
def eventsColWidth : String → Option Nat
  | "Operator_ID" => some 10
  | "Address" => some 20
  | "FunctionCode" => some 10
  | "CommandResponse" => some 20
  | "ControlMode" => some 20
  | "ControlScheme" => some 50
  | "InvalidFunctionCode" => some 5
  | "InvalidDataLength" => some 5
  | "PumpState" => some 20
  | "SolenoidState" => some 20
  | "Label" => some 20
  | _ => none

/-- The Events columns that are NOT NULL without a server default in
models.py, i.e. those the store requires in every insert mapping.
Event_ID is the autoincrement key and Timestamp carries
`server_default=func.now()`, so neither is required in a mapping. -/
def eventsNonNullNoDefault : List String :=
  ["Session_ID", "Operator_ID", "TimeInterval", "Address", "FunctionCode",
   "CommandResponse", "ControlMode", "ControlScheme", "CRC", "DataLength",
   "InvalidFunctionCode", "InvalidDataLength", "PumpState", "SolenoidState",
   "SetPoint", "PipelinePSI", "PIDCycleTime", "PIDDeadband", "PIDGain",
   "PIDRate", "PIDReset", "deltaSetPoint", "deltaPipelinePSI",
   "deltaPIDCycleTime", "deltaPIDDeadband", "deltaPIDGain", "deltaPIDRate",
   "deltaPIDReset", "Label"]

/-- The required input columns (load_data.py line 119). -/
def requiredCols : List String := ["Session_ID", "Operator_ID", "Timestamp", "Shift"]

-- ---------------------------------------------------------------------------
-- DataFrame model
-- ---------------------------------------------------------------------------

/-- A parsed CSV chunk: named columns and positional rows (one `Cell` per
column, in column order). -/
structure DataFrame where
  cols : List String
  rows : List (List Cell)
deriving DecidableEq, Repr

/-- Cell of a row at a named column (NA when the column is absent; a parsed
chunk always carries every column). -/
def cellAt (cols : List String) (r : List Cell) (c : String) : Cell :=
  match cols.indexOf? c with
  | some i => r.getD i .na
  | none => .na

/-- Column projection `df[names]`, in the given column order. -/
def selectCols (df : DataFrame) (names : List String) : DataFrame :=
  { cols := names
    rows := df.rows.map (fun r => names.map (fun c => cellAt df.cols r c)) }

/-- Columnwise map `df[c] = f(df[c])` at one named column. -/
def mapCol (df : DataFrame) (c : String) (f : Cell → Cell) : DataFrame :=
  match df.cols.indexOf? c with
  | some i => { df with rows := df.rows.map (fun r => r.set i (f (r.getD i .na))) }
  | none => df

/-- Pandas `df.dropna(subset=sub)`: keep the rows whose cells at every
subset column are non-NA. -/
def dropnaSubset (df : DataFrame) (sub : List String) : DataFrame :=
  { df with rows := df.rows.filter (fun r => sub.all (fun c => cellAt df.cols r c != .na)) }

/-- Header cleaning (load_data.py lines 109-113): strip byte-order marks and
surrounding whitespace from every column name. -/
def cleanCols (chunk : DataFrame) : DataFrame :=
  { chunk with cols := chunk.cols.map (fun c => pyStrip (stripBOM c)) }

-- ---------------------------------------------------------------------------
-- Transactional store and loader errors
-- ---------------------------------------------------------------------------

/-- The store seen through one SQLAlchemy session: `committed` is durable
state, `current` additionally holds the uncommitted writes of the open
transaction.  `commit()` publishes `current`; `rollback()` restores
`committed`. -/
structure TxDB where
  committed : DB
  current : DB
deriving DecidableEq, Repr

/-- Transaction commit. -/
def TxDB.commit (t : TxDB) : TxDB :=
  { committed := t.current, current := t.current }

/-- The exceptions the loader can raise: the two ValueError validations of
load_data.py and a store IntegrityError naming the rejecting table. -/
inductive LoadError where
  | missingColumns (cols : List String)
  | badShift (examples : List Cell)
  | integrityError (table : String)
deriving DecidableEq, Repr

/-- Boolean pairwise distinctness of a list (used for primary-key checks). -/
def distinctB {α : Type} [BEq α] : List α → Bool
  | [] => true
  | x :: xs => !xs.contains x && distinctB xs

-- ---------------------------------------------------------------------------
-- ensure_operators (load_data.py lines 47-58)
-- ---------------------------------------------------------------------------

/-- load_data.py `ensure_operators`: query which of the incoming operator
ids already exist, bulk-insert an Operators row (rank true) for each missing
one, and commit.  The bulk insert is subject to the store's primary-key
constraint; a violation raises IntegrityError with the statement not
applied. -/
def ensure_operators (t : TxDB) (operator_ids : List String) :
    Except (LoadError × TxDB) TxDB :=
  if operator_ids.isEmpty then .ok t
  else
    let missing := operator_ids.filter
      (fun oid => !(t.current.operators.any (fun o => o.Operator_ID == oid)))
    if missing.isEmpty then .ok t
    else
      let rows := missing.map (fun oid => OperatorRow.mk oid true)
      if distinctB (rows.map (fun r => r.Operator_ID)) &&
          rows.all (fun r => !(t.current.operators.any
            (fun o => o.Operator_ID == r.Operator_ID))) then
        .ok (TxDB.commit
          { t with current := { t.current with operators := t.current.operators ++ rows } })
      else .error (.integrityError "Operators", t)

-- ---------------------------------------------------------------------------
-- ensure_sessions (load_data.py lines 61-99)
-- ---------------------------------------------------------------------------

/-- Integer value of a cell, when it is one. -/
def cellInt? : Cell → Option Int
  | .int n => some n
  | _ => none

/-- Tick value of a datetime cell, when it is one. -/
def tsOf : Cell → Option Nat
  | .dt t => some t
  | _ => none

/-- Ordered insertion, for the sorted group keys of pandas groupby. -/
def insertSorted (x : Int) : List Int → List Int
  | [] => [x]
  | y :: ys => if x ≤ y then x :: y :: ys else y :: insertSorted x ys

/-- Ascending sort of the group keys (pandas groupby sorts keys). -/
def sortInts (l : List Int) : List Int := l.foldr insertSorted []

/-- Group keys of `df.groupby("Session_ID")`: the distinct integer session
ids of the chunk, sorted ascending; NA keys are dropped by groupby. -/
def groupKeys (df : DataFrame) : List Int :=
  sortInts (pdUnique (df.rows.filterMap (fun r => cellInt? (cellAt df.cols r "Session_ID"))))

/-- The rows of one groupby group, in original order. -/
def groupRows (df : DataFrame) (k : Int) : List (List Cell) :=
  df.rows.filter (fun r => cellAt df.cols r "Session_ID" == .int k)

/-- Pandas groupby aggregation "first": the first non-NA value. -/
def aggFirst (cs : List Cell) : Cell :=
  ((cs.filter (fun c => c != .na)).head?).getD .na

/-- Pandas groupby aggregation "min" over a datetime column (NA skipped). -/
def aggMinTs (cs : List Cell) : Cell :=
  match cs.filterMap tsOf with
  | [] => .na
  | t :: ts => .dt (ts.foldl min t)

/-- Pandas groupby aggregation "max" over a datetime column (NA skipped). -/
def aggMaxTs (cs : List Cell) : Cell :=
  match cs.filterMap tsOf with
  | [] => .na
  | t :: ts => .dt (ts.foldl max t)

/-- One row of the `sess` aggregate of load_data.py lines 67-75: per session
id, the first operator, the first shift label, and the min/max timestamp. -/
structure SessAgg where
  Session_ID : Int
  opCell : Cell
  shiftCell : Cell
  startCell : Cell
  endCell : Cell
deriving DecidableEq, Repr

/-- The aggregate row of one groupby group. -/
def mkAgg (df : DataFrame) (k : Int) : SessAgg :=
  let g := groupRows df k
  { Session_ID := k
    opCell := aggFirst (g.map (fun r => cellAt df.cols r "Operator_ID"))
    shiftCell := aggFirst (g.map (fun r => cellAt df.cols r "Shift"))
    startCell := aggMinTs (g.map (fun r => cellAt df.cols r "Timestamp"))
    endCell := aggMaxTs (g.map (fun r => cellAt df.cols r "Timestamp")) }

/-- The full `sess` aggregate DataFrame of load_data.py lines 67-75. -/
def sessionAggs (df : DataFrame) : List SessAgg :=
  (groupKeys df).map (mkAgg df)

/-- Lines 77-79: `sess["Shift"].astype(str).str.strip().str.upper().map(SHIFT_MAP)` —
the fixed trimmed case-folded shift lookup on one cell. -/
def shiftIdOf (c : Cell) : Option Int :=
  SHIFT_MAP.lookup (pyUpper (pyStrip (cellToStr c)))

/-- The Sessions row built from one aggregate row (lines 84, 94-97):
Shift_ID from the fixed lookup and the fixed default inactivity
threshold 10. -/
def toSessionRow (a : SessAgg) : SessionRow :=
  { Session_ID := a.Session_ID
    Operator_ID := cellToStr a.opCell
    Shift_ID := (shiftIdOf a.shiftCell).getD 0
    Session_Start := a.startCell
    Session_End := a.endCell
    Inactivity_Threshold_Min := 10 }

/-- Store-side constraints of the Sessions bulk insert: primary-key
uniqueness of Session_ID and the foreign keys into Operators and
shift_definitions. -/
def sessionsCheck (d : DB) (rows : List SessionRow) : Bool :=
  distinctB (rows.map (fun r => r.Session_ID)) &&
  rows.all (fun r =>
    !(d.sessions.any (fun s => s.Session_ID == r.Session_ID)) &&
    d.operators.any (fun o => o.Operator_ID == r.Operator_ID) &&
    d.shift_defs.any (fun sd => sd.shift_id == r.Shift_ID))

/-- load_data.py `ensure_sessions`: aggregate the chunk by session id,
map the shift labels through SHIFT_MAP and raise ValueError naming up to
ten offending values when any is unrecognized, then bulk-insert (and
commit) the derived rows whose session id is not already present.  The
existence query restricted to the incoming ids is equivalent to direct
membership in the Sessions table. -/
def ensure_sessions (t : TxDB) (df : DataFrame) : Except (LoadError × TxDB) TxDB :=
  let aggs := sessionAggs df
  let bad := aggs.filter (fun a => (shiftIdOf a.shiftCell).isNone)
  if !bad.isEmpty then .error (.badShift ((bad.map (fun a => a.shiftCell)).take 10), t)
  else
    let recs := aggs.map toSessionRow
    let to_insert := recs.filter
      (fun r => !(t.current.sessions.any (fun s => s.Session_ID == r.Session_ID)))
    if to_insert.isEmpty then .ok t
    else
      if sessionsCheck t.current to_insert then
        .ok (TxDB.commit
          { t with current := { t.current with sessions := t.current.sessions ++ to_insert } })
      else .error (.integrityError "Sessions", t)

-- ---------------------------------------------------------------------------
-- Event insert (load_data.py lines 161-170)
-- ---------------------------------------------------------------------------

/-- Session_ID value of an insert mapping (0 only on mappings the store
rejects anyway). -/
def recSid (m : List (String × Cell)) : Int :=
  match m.lookup "Session_ID" with
  | some (.int n) => n
  | _ => 0

/-- Operator_ID value of an insert mapping. -/
def recOid (m : List (String × Cell)) : String :=
  match m.lookup "Operator_ID" with
  | some (.str s) => s
  | _ => ""

/-- Store-side constraints of the Events bulk insert: a well-typed existing
Session_ID and Operator_ID foreign key, and every NOT NULL column without a
server default present and non-NA in the mapping. -/
def eventsCheck (ops : List OperatorRow) (sess : List SessionRow)
    (ms : List (List (String × Cell))) : Bool :=
  ms.all (fun m =>
    (match m.lookup "Session_ID" with
     | some (.int sid) => sess.any (fun s => s.Session_ID == sid)
     | _ => false) &&
    (match m.lookup "Operator_ID" with
     | some (.str oid) => ops.any (fun o => o.Operator_ID == oid)
     | _ => false) &&
    eventsNonNullNoDefault.all (fun c =>
      match m.lookup c with
      | some v => v != .na
      | none => false))

/-- Consecutive autoincrement Event_ID assignment for a bulk insert. -/
def assignEventIds (start : Nat) : List (List (String × Cell)) → List EventRow
  | [] => []
  | m :: ms => EventRow.mk start (recSid m) (recOid m) m :: assignEventIds (start + 1) ms

/-- Lines 162-165: the event-table projection of the chunk (every recognized
column present except Shift) as insert mappings, `to_dict("records")`.
NA cells stand for the None values substituted by `where(notnull, None)`. -/
def eventRecords (df : DataFrame) : List (List (String × Cell)) :=
  let eventCols := EVENTS_COLS.filter (fun c => df.cols.contains c && c != "Shift")
  (selectCols df eventCols).rows.map (fun r => eventCols.zip r)

/-- Lines 166-167: `bulk_insert_mappings(Events, records)` followed by
`commit()`; a constraint violation raises IntegrityError with the statement
not applied.  Returns the number of inserted rows (line 169). -/
def insertEventsStep (t : TxDB) (df : DataFrame) :
    Except (LoadError × TxDB) (TxDB × Nat) :=
  let records := eventRecords df
  if eventsCheck t.current.operators t.current.sessions records then
    .ok (TxDB.commit
      { t with current :=
        { t.current with
          events := t.current.events ++ assignEventIds t.current.next_event_id records
          next_event_id := t.current.next_event_id + records.length } },
      records.length)
  else .error (.integrityError "Events", t)

-- ---------------------------------------------------------------------------
-- Per-chunk pipeline and run loop (load_data.py lines 102-182)
-- ---------------------------------------------------------------------------

/-- Lines 109-153, the store-free part of one chunk: clean the header, keep
the recognized columns, require Session_ID/Operator_ID/Timestamp/Shift,
coerce types, trim Label, apply the MAXLEN truncations, and drop the rows
still missing Session_ID, Operator_ID or Timestamp. -/
def prepChunk (chunk : DataFrame) : Except LoadError DataFrame :=
  let c := cleanCols chunk
  let keep := EVENTS_COLS.filter (fun col => c.cols.contains col)
  let df := selectCols c keep
  let miss := requiredCols.filter (fun col => !df.cols.contains col)
  if !miss.isEmpty then .error (.missingColumns miss)
  else
    let df1 := mapCol df "Session_ID" toNumericCoerce
    let df2 := mapCol df1 "Operator_ID" (fun v => .str (pyStrip (cellToStr v)))
    let df3 := mapCol df2 "Timestamp" toDatetimeCoerce
    let df4 := if df3.cols.contains "Label"
      then mapCol df3 "Label" (fun v => .str (pyStrip (cellToStr v))) else df3
    let df5 := MAXLEN.foldl (fun acc p =>
      if acc.cols.contains p.1
      then mapCol acc p.1 (fun v => .str (pySlice p.2 (cellToStr v))) else acc) df4
    .ok (dropnaSubset df5 ["Session_ID", "Operator_ID", "Timestamp"])

/-- Line 156: `df["Operator_ID"].unique().tolist()`. -/
def operatorIdsOf (df : DataFrame) : List String :=
  pdUnique (df.rows.map (fun r => cellToStr (cellAt df.cols r "Operator_ID")))

/-- One loop iteration of lines 107-170: prepare the chunk, ensure
operators, ensure sessions, insert the events; each raise carries the
session state at the raise point. -/
def processChunk (t : TxDB) (chunk : DataFrame) :
    Except (LoadError × TxDB) (TxDB × Nat) :=
  match prepChunk chunk with
  | .error e => .error (e, t)
  | .ok df =>
    match ensure_operators t (operatorIdsOf df) with
    | .error p => .error p
    | .ok t1 =>
      match ensure_sessions t1 df with
      | .error p => .error p
      | .ok t2 => insertEventsStep t2 df

/-- Outcome of a whole run: the exception if one was raised, the durable
store after close, and the running insert total that was reported. -/
structure LoadResult where
  error : Option LoadError
  db : DB
  total : Nat
deriving DecidableEq, Repr

/-- The chunk loop with the except/rollback/close of lines 106-182: an
exception rolls the open transaction back (restoring `committed`), is
re-raised, and the session is closed. -/
def loadChunks (t : TxDB) (chunks : List DataFrame) (total : Nat) : LoadResult :=
  match chunks with
  | [] => { error := none, db := t.committed, total := total }
  | c :: cs =>
    match processChunk t c with
    | .ok (t', n) => loadChunks t' cs (total + n)
    | .error (e, t') => { error := some e, db := t'.committed, total := total }

/-- load_data.py `load_events_csv` on an already-parsed sequence of chunks,
starting from durable store `d` with a fresh session. -/
def load_events_csv (d : DB) (chunks : List DataFrame) : LoadResult :=
  loadChunks { committed := d, current := d } chunks 0

-- ---------------------------------------------------------------------------
-- Concrete fixtures (an initialized store and small parsed chunks)
-- ---------------------------------------------------------------------------

/-- An initialized store: the two shift definitions SHIFT_MAP targets
(shift_definitions.shift_id 1 and 2) and nothing else. -/
def dInit : DB :=
  { operators := [], shift_defs := [⟨1, "DAY"⟩, ⟨2, "NIGHT"⟩], sessions := [],
    events := [], features := [], detections := [], alerts := [], next_event_id := 0 }

/-- A chunk carrying only the four required columns, one well-formed row. -/
def chunk4 : DataFrame :=
  { cols := ["Session_ID", "Operator_ID", "Timestamp", "Shift"]
    rows := [[.str "1", .str "OP1", .str "100", .str "DAY"]] }

/-- A chunk carrying every recognized column, one fully populated row. -/
def chunkFull : DataFrame :=
  { cols := EVENTS_COLS
    rows := [[.int 1, .str "OP1", .str "100", .int 0, .str "A", .str "3",
              .str "C", .str "M", .str "S", .int 1, .int 8, .str "F", .str "F",
              .str "On", .str "Off", .int 10, .int 20, .int 1, .int 1, .int 1,
              .int 1, .int 1, .int 0, .int 0, .int 0, .int 0, .int 0, .int 0,
              .int 0, .str "Good", .str "DAY"]] }

/-- The store after one successful run over `chunkFull`. -/
def dAfterFull : DB := (load_events_csv dInit [chunkFull]).db

/-- A chunk whose only row carries the unrecognized shift label "SWING" and
a fresh operator id. -/
def chunkSwing : DataFrame :=
  { cols := ["Session_ID", "Operator_ID", "Timestamp", "Shift"]
    rows := [[.str "7", .str "OP9", .str "100", .str "SWING"]] }

/-- A fully populated two-row chunk whose second row has a missing (NA)
Operator_ID field. -/
def chunkNaOp : DataFrame :=
  { cols := EVENTS_COLS
    rows := [[.int 1, .str "OP1", .str "100", .int 0, .str "A", .str "3",
              .str "C", .str "M", .str "S", .int 1, .int 8, .str "F", .str "F",
              .str "On", .str "Off", .int 10, .int 20, .int 1, .int 1, .int 1,
              .int 1, .int 1, .int 0, .int 0, .int 0, .int 0, .int 0, .int 0,
              .int 0, .str "Good", .str "DAY"],
             [.int 3, .na, .str "100", .int 0, .str "A", .str "3",
              .str "C", .str "M", .str "S", .int 1, .int 8, .str "F", .str "F",
              .str "On", .str "Off", .int 10, .int 20, .int 1, .int 1, .int 1,
              .int 1, .int 1, .int 0, .int 0, .int 0, .int 0, .int 0, .int 0,
              .int 0, .str "Good", .str "DAY"]] }

/-- A 21-character Address value: longer than the declared Events.Address
width of 20, shorter than the MAXLEN cap of 50. -/
def addr21 : String := "ABCDEFGHIJKLMNOPQRSTU"

/-- A chunk whose row carries the 21-character Address value. -/
def chunkAddr : DataFrame :=
  { cols := ["Session_ID", "Operator_ID", "Timestamp", "Shift", "Address"]
    rows := [[.str "1", .str "OP1", .str "100", .str "DAY", .str addr21]] }

/-- An already-prepared four-column batch with two rows of one session, used
to instantiate the reconciliation and aggregation theorems. -/
def dfPrepared : DataFrame :=
  { cols := ["Session_ID", "Operator_ID", "Timestamp", "Shift"]
    rows := [[.int 1, .str "OP1", .dt 200, .str "DAY"],
             [.int 1, .str "OP2", .dt 100, .str "DAY"]] }

/-- A store populated with one session, its two events, a feature row, a
detection per event and three alerts, to instantiate the cascade theorems. -/
def dCascade : DB :=
  { operators := [⟨"OP1", true⟩]
    shift_defs := [⟨1, "DAY"⟩, ⟨2, "NIGHT"⟩]
    sessions := [⟨1, "OP1", 1, .dt 100, .dt 200, 10⟩, ⟨2, "OP1", 1, .dt 300, .dt 400, 10⟩]
    events := [⟨10, 1, "OP1", []⟩, ⟨11, 1, "OP1", []⟩, ⟨12, 2, "OP1", []⟩]
    features := [⟨100, 1⟩, ⟨101, 2⟩]
    detections := [⟨50, 10⟩, ⟨51, 12⟩]
    alerts := [⟨70, 10, 1, 50⟩, ⟨71, 11, 1, 50⟩, ⟨72, 12, 2, 51⟩]
    next_event_id := 13 }

-- ---------------------------------------------------------------------------
-- Theorems
-- ---------------------------------------------------------------------------

/-- C1 counterexample: on a chunk carrying only the four required columns,
the run fails at the Event insert (missing NOT NULL Events columns), yet the
chunk's Operator row and Session row remain durably committed — the chunk's
writes were not one transaction and the failure did not roll them back. -/
theorem C1_counterexample :
    (load_events_csv dInit [chunk4]).error = some (.integrityError "Events") ∧
    (load_events_csv dInit [chunk4]).db.operators = [⟨"OP1", true⟩] ∧
    (load_events_csv dInit [chunk4]).db.sessions = [⟨1, "OP1", 1, .dt 100, .dt 100, 10⟩] ∧
    (load_events_csv dInit [chunk4]).db.events = [] := by decide

/-- C2 counterexample: running the loader twice on the same fully populated
chunk raises no error at all on the second run — instead of the claimed
uniqueness violation — and silently stores the event rows a second time,
while Operator and Session rows are indeed not duplicated. -/
theorem C2_counterexample :
    (load_events_csv dInit [chunkFull]).error = none ∧
    (load_events_csv dAfterFull [chunkFull]).error = none ∧
    (load_events_csv dAfterFull [chunkFull]).db.operators = dAfterFull.operators ∧
    (load_events_csv dAfterFull [chunkFull]).db.sessions = dAfterFull.sessions ∧
    dAfterFull.events.length = 1 ∧
    (load_events_csv dAfterFull [chunkFull]).db.events.length = 2 := by decide

/-- C3 counterexample: a chunk with unrecognized shift label "SWING" aborts
the run with an error naming the value, but the chunk's fresh Operator row
has already been inserted and committed before the abort — so the abort does
not happen before any rows from the chunk reach the store. -/
theorem C3_counterexample :
    (load_events_csv dInit [chunkSwing]).error = some (.badShift [.str "SWING"]) ∧
    (load_events_csv dInit [chunkSwing]).db.operators = [⟨"OP9", true⟩] := by decide

/-- C4: a row whose Operator_ID field is missing is NOT dropped: pandas
astype(str) turns the NA into the literal string "nan" before the
dropna(subset=[..., "Operator_ID", ...]) runs, so the row is inserted with
operator id "nan" (and an Operators row "nan" is created), contradicting the
claimed silent drop. -/
theorem C4_missing_operator_id_inserted :
    (load_events_csv dInit [chunkNaOp]).error = none ∧
    (load_events_csv dInit [chunkNaOp]).total = 2 ∧
    (load_events_csv dInit [chunkNaOp]).db.operators = [⟨"OP1", true⟩, ⟨"nan", true⟩] ∧
    ((load_events_csv dInit [chunkNaOp]).db.events.map (fun e => e.Operator_ID)) =
      ["OP1", "nan"] := by decide

/-- C7 counterexample: the configured maximum for Address is 50 while the
declared Events.Address width is String(20); a 21-character Address value
passes the truncation step unchanged, so the applied maxima do not keep
every stored value within the declared field width. -/
theorem C7_counterexample :
    prepChunk chunkAddr = .ok
      { cols := ["Session_ID", "Operator_ID", "Timestamp", "Address", "Shift"]
        rows := [[.int 1, .str "OP1", .dt 100, .str addr21, .str "DAY"]] } ∧
    addr21.length = 21 ∧
    MAXLEN.lookup "Address" = some 50 ∧
    eventsColWidth "Address" = some 20 :=
  ⟨rfl, by decide, by decide, by decide⟩

/-- C8: deleting a Session row deletes all Event rows of that session, its
SessionFeatures rows, and all Alert rows of that session, preserves the
rows of other sessions, and leaves the Operators and shift_definitions
tables unchanged. -/
theorem C8_session_delete_cascade (d : DB) (sid : Int) :
    (∀ s ∈ (deleteSession d sid).sessions, s.Session_ID ≠ sid) ∧
    (∀ e ∈ (deleteSession d sid).events, e.Session_ID ≠ sid) ∧
    (∀ f ∈ (deleteSession d sid).features, f.Session_ID ≠ sid) ∧
    (∀ a ∈ (deleteSession d sid).alerts, a.Session_ID ≠ sid) ∧
    (∀ s ∈ d.sessions, s.Session_ID ≠ sid → s ∈ (deleteSession d sid).sessions) ∧
    (∀ e ∈ d.events, e.Session_ID ≠ sid → e ∈ (deleteSession d sid).events) ∧
    (∀ f ∈ d.features, f.Session_ID ≠ sid → f ∈ (deleteSession d sid).features) ∧
    (deleteSession d sid).operators = d.operators ∧
    (deleteSession d sid).shift_defs = d.shift_defs := by
  refine ⟨?_, ?_, ?_, ?_, ?_, ?_, ?_, rfl, rfl⟩
  · intro s hs
    have h := List.of_mem_filter hs
    simpa using h
  · intro e he
    have h := List.of_mem_filter he
    simpa using h
  · intro f hf
    have h := List.of_mem_filter hf
    simpa using h
  · intro a ha
    have h := List.of_mem_filter ha
    simp [Bool.and_eq_true] at h
    exact h.1
  · intro s hs hne
    exact List.mem_filter_of_mem hs (by simpa using hne)
  · intro e he hne
    exact List.mem_filter_of_mem he (by simpa using hne)
  · intro f hf hne
    exact List.mem_filter_of_mem hf (by simpa using hne)

/-- C8 witness: the cascade theorem instantiated at the populated store
`dCascade` and session 1. -/
theorem C8_witness :
    (∀ s ∈ (deleteSession dCascade 1).sessions, s.Session_ID ≠ 1) ∧
    (∀ e ∈ (deleteSession dCascade 1).events, e.Session_ID ≠ 1) ∧
    (∀ f ∈ (deleteSession dCascade 1).features, f.Session_ID ≠ 1) ∧
    (∀ a ∈ (deleteSession dCascade 1).alerts, a.Session_ID ≠ 1) ∧
    (∀ s ∈ dCascade.sessions, s.Session_ID ≠ 1 → s ∈ (deleteSession dCascade 1).sessions) ∧
    (∀ e ∈ dCascade.events, e.Session_ID ≠ 1 → e ∈ (deleteSession dCascade 1).events) ∧
    (∀ f ∈ dCascade.features, f.Session_ID ≠ 1 → f ∈ (deleteSession dCascade 1).features) ∧
    (deleteSession dCascade 1).operators = dCascade.operators ∧
    (deleteSession dCascade 1).shift_defs = dCascade.shift_defs :=
  C8_session_delete_cascade dCascade 1

/-- C9: deleting an Event row cascades deletion of every Alert row
referencing that event (and only those), and deleting a Detection row
cascades deletion of every Alert row referencing that detection (and only
those). -/
theorem C9_event_and_detection_delete_cascade (d : DB) (eid : Nat) (did : Nat) :
    (∀ a ∈ (deleteEvent d eid).alerts, a.Event_ID ≠ eid) ∧
    (∀ a ∈ d.alerts, a.Event_ID ≠ eid → a ∈ (deleteEvent d eid).alerts) ∧
    (∀ e ∈ (deleteEvent d eid).events, e.Event_ID ≠ eid) ∧
    (∀ a ∈ (deleteDetection d did).alerts, a.Detection_ID ≠ did) ∧
    (∀ a ∈ d.alerts, a.Detection_ID ≠ did → a ∈ (deleteDetection d did).alerts) ∧
    (∀ r ∈ (deleteDetection d did).detections, r.Detection_ID ≠ did) := by
  refine ⟨?_, ?_, ?_, ?_, ?_, ?_⟩
  · intro a ha
    have h := List.of_mem_filter ha
    simpa using h
  · intro a ha hne
    exact List.mem_filter_of_mem ha (by simpa using hne)
  · intro e he
    have h := List.of_mem_filter he
    simpa using h
  · intro a ha
    have h := List.of_mem_filter ha
    simpa using h
  · intro a ha hne
    exact List.mem_filter_of_mem ha (by simpa using hne)
  · intro r hr
    have h := List.of_mem_filter hr
    simpa using h

/-- C9 witness: the event/detection cascade theorem instantiated at the
populated store `dCascade`, event 10 and detection 51. -/
theorem C9_witness :
    (∀ a ∈ (deleteEvent dCascade 10).alerts, a.Event_ID ≠ 10) ∧
    (∀ a ∈ dCascade.alerts, a.Event_ID ≠ 10 → a ∈ (deleteEvent dCascade 10).alerts) ∧
    (∀ e ∈ (deleteEvent dCascade 10).events, e.Event_ID ≠ 10) ∧
    (∀ a ∈ (deleteDetection dCascade 51).alerts, a.Detection_ID ≠ 51) ∧
    (∀ a ∈ dCascade.alerts, a.Detection_ID ≠ 51 → a ∈ (deleteDetection dCascade 51).alerts) ∧
    (∀ r ∈ (deleteDetection dCascade 51).detections, r.Detection_ID ≠ 51) :=
  C9_event_and_detection_delete_cascade dCascade 10 51

/-- Membership in the fold underlying `pdUnique`. -/
theorem pdUnique_foldl_mem {α : Type} [BEq α] [LawfulBEq α] (l acc : List α) (a : α) :
    a ∈ l.foldl (fun acc x => if acc.contains x then acc else acc ++ [x]) acc ↔
      a ∈ acc ∨ a ∈ l := by
  induction l generalizing acc with
  | nil => simp
  | cons x xs ih =>
    simp only [List.foldl_cons]
    by_cases hx : acc.contains x
    · rw [if_pos hx, ih]
      constructor
      · rintro (h | h)
        · exact Or.inl h
        · exact Or.inr (List.mem_cons_of_mem _ h)
      · rintro (h | h)
        · exact Or.inl h
        · rcases List.mem_cons.mp h with rfl | h
          · exact Or.inl (List.elem_iff.mp hx)
          · exact Or.inr h
    · rw [if_neg hx, ih]
      simp only [List.mem_append, List.mem_singleton, List.mem_cons]
      tauto

/-- Membership in `pdUnique`. -/
theorem mem_pdUnique {α : Type} [BEq α] [LawfulBEq α] (l : List α) (a : α) :
    a ∈ pdUnique l ↔ a ∈ l := by
  rw [pdUnique, pdUnique_foldl_mem]
  simp

/-- The fold underlying `pdUnique` preserves distinctness. -/
theorem pdUnique_foldl_nodup {α : Type} [BEq α] [LawfulBEq α] (l acc : List α)
    (h : acc.Nodup) :
    (l.foldl (fun acc x => if acc.contains x then acc else acc ++ [x]) acc).Nodup := by
  induction l generalizing acc with
  | nil => simpa
  | cons x xs ih =>
    simp only [List.foldl_cons]
    by_cases hx : acc.contains x
    · rw [if_pos hx]; exact ih acc h
    · rw [if_neg hx]
      refine ih _ ?_
      rw [List.nodup_append]
      refine ⟨h, List.nodup_singleton x, ?_⟩
      intro b hb hb'
      rcases List.mem_singleton.mp hb' with rfl
      exact hx (List.elem_iff.mpr hb)

/-- The result of `pdUnique` has no duplicates. -/
theorem nodup_pdUnique {α : Type} [BEq α] [LawfulBEq α] (l : List α) :
    (pdUnique l).Nodup :=
  pdUnique_foldl_nodup l [] List.nodup_nil

/-- Membership in `insertSorted`. -/
theorem mem_insertSorted (x a : Int) (l : List Int) :
    a ∈ insertSorted x l ↔ a = x ∨ a ∈ l := by
  induction l with
  | nil => simp [insertSorted]
  | cons y ys ih =>
    rw [insertSorted]
    by_cases h : x ≤ y
    · rw [if_pos h]; simp [List.mem_cons]
    · rw [if_neg h]
      simp only [List.mem_cons, ih]
      tauto

/-- Membership in `sortInts`. -/
theorem mem_sortInts (a : Int) (l : List Int) : a ∈ sortInts l ↔ a ∈ l := by
  induction l with
  | nil => simp [sortInts]
  | cons x xs ih =>
    rw [sortInts, List.foldr_cons, mem_insertSorted]
    rw [sortInts] at ih
    rw [ih]
    simp [List.mem_cons]

/-- `insertSorted` preserves distinctness. -/
theorem nodup_insertSorted (x : Int) (l : List Int) (hx : x ∉ l) (h : l.Nodup) :
    (insertSorted x l).Nodup := by
  induction l with
  | nil => simp [insertSorted]
  | cons y ys ih =>
    rw [insertSorted]
    by_cases hxy : x ≤ y
    · rw [if_pos hxy]
      exact List.nodup_cons.mpr ⟨hx, h⟩
    · rw [if_neg hxy]
      rcases List.nodup_cons.mp h with ⟨hy, hys⟩
      refine List.nodup_cons.mpr ⟨?_, ih (fun hm => hx (List.mem_cons_of_mem _ hm)) hys⟩
      rw [mem_insertSorted]
      rintro (rfl | hm)
      · exact hx (List.mem_cons_self _ _)
      · exact hy hm

/-- `sortInts` preserves distinctness. -/
theorem nodup_sortInts (l : List Int) (h : l.Nodup) : (sortInts l).Nodup := by
  induction l with
  | nil => simp [sortInts]
  | cons x xs ih =>
    rcases List.nodup_cons.mp h with ⟨hx, hxs⟩
    have hmem : x ∉ sortInts xs := fun hm => hx ((mem_sortInts x xs).mp hm)
    exact nodup_insertSorted x (sortInts xs) hmem (ih hxs)

/-- `distinctB` decides distinctness. -/
theorem distinctB_eq_true_iff {α : Type} [BEq α] [LawfulBEq α] (l : List α) :
    distinctB l = true ↔ l.Nodup := by
  induction l with
  | nil => simp [distinctB]
  | cons x xs ih =>
    rw [distinctB, Bool.and_eq_true, List.nodup_cons, ih]
    constructor
    · rintro ⟨h1, h2⟩
      refine ⟨fun hm => ?_, h2⟩
      have hc : xs.contains x = true := List.elem_iff.mpr hm
      rw [hc] at h1
      exact absurd h1 (by simp)
    · rintro ⟨h1, h2⟩
      refine ⟨?_, h2⟩
      cases hcb : xs.contains x with
      | false => rfl
      | true => exact absurd (List.elem_iff.mp hcb) h1

/-- The left fold of `min` lands in the list (or is the seed). -/
theorem foldl_min_mem (ts : List Nat) (t : Nat) :
    ts.foldl min t = t ∨ ts.foldl min t ∈ ts := by
  induction ts generalizing t with
  | nil => simp
  | cons x xs ih =>
    rw [List.foldl_cons]
    rcases ih (min t x) with h | h
    · rw [h]
      rcases Nat.le_total t x with hle | hle
      · exact Or.inl (by omega)
      · refine Or.inr ?_
        have hx : min t x = x := by omega
        rw [hx]
        exact List.mem_cons_self _ _
    · exact Or.inr (List.mem_cons_of_mem _ h)

/-- The left fold of `min` is a lower bound of seed and list. -/
theorem foldl_min_le (ts : List Nat) (t : Nat) :
    ts.foldl min t ≤ t ∧ ∀ x ∈ ts, ts.foldl min t ≤ x := by
  induction ts generalizing t with
  | nil => simp
  | cons y ys ih =>
    rw [List.foldl_cons]
    rcases ih (min t y) with ⟨h1, h2⟩
    refine ⟨le_trans h1 (by omega), ?_⟩
    intro x hx
    rcases List.mem_cons.mp hx with rfl | hm
    · exact le_trans h1 (by omega)
    · exact h2 x hm

/-- The left fold of `max` lands in the list (or is the seed). -/
theorem foldl_max_mem (ts : List Nat) (t : Nat) :
    ts.foldl max t = t ∨ ts.foldl max t ∈ ts := by
  induction ts generalizing t with
  | nil => simp
  | cons x xs ih =>
    rw [List.foldl_cons]
    rcases ih (max t x) with h | h
    · rw [h]
      rcases Nat.le_total t x with hle | hle
      · refine Or.inr ?_
        have hx : max t x = x := by omega
        rw [hx]
        exact List.mem_cons_self _ _
      · exact Or.inl (by omega)
    · exact Or.inr (List.mem_cons_of_mem _ h)

/-- The left fold of `max` is an upper bound of seed and list. -/
theorem foldl_max_le (ts : List Nat) (t : Nat) :
    t ≤ ts.foldl max t ∧ ∀ x ∈ ts, x ≤ ts.foldl max t := by
  induction ts generalizing t with
  | nil => simp
  | cons y ys ih =>
    rw [List.foldl_cons]
    rcases ih (max t y) with ⟨h1, h2⟩
    refine ⟨le_trans (by omega) h1, ?_⟩
    intro x hx
    rcases List.mem_cons.mp hx with rfl | hm
    · exact le_trans (by omega) h1
    · exact h2 x hm

/-- Autoincrement assignment preserves the record count. -/
theorem assignEventIds_length (start : Nat) (ms : List (List (String × Cell))) :
    (assignEventIds start ms).length = ms.length := by
  induction ms generalizing start with
  | nil => rfl
  | cons m ms ih => rw [assignEventIds, List.length_cons, List.length_cons, ih]

/-- `tsOf` inverts the datetime constructor. -/
theorem tsOf_eq_some_iff (c : Cell) (n : Nat) : tsOf c = some n ↔ c = .dt n := by
  cases c <;> simp [tsOf]

/-- Membership in the tick projection of a cell list. -/
theorem mem_filterMap_tsOf (cs : List Cell) (n : Nat) :
    n ∈ cs.filterMap tsOf ↔ Cell.dt n ∈ cs := by
  rw [List.mem_filterMap]
  constructor
  · rintro ⟨c, hc, h⟩
    rw [tsOf_eq_some_iff] at h
    exact h ▸ hc
  · intro h
    exact ⟨.dt n, h, rfl⟩

/-- On a list of non-NA cells, groupby "first" is the head. -/
theorem aggFirst_eq_head (cs : List Cell) (h : ∀ c ∈ cs, c ≠ .na) :
    aggFirst cs = cs.head?.getD .na := by
  rw [aggFirst, List.filter_eq_self.mpr]
  intro c hc
  simpa using h c hc

/-- `cellInt?` inverts the integer constructor. -/
theorem cellInt?_eq_some_iff (c : Cell) (n : Int) : cellInt? c = some n ↔ c = .int n := by
  cases c <;> simp [cellInt?]

/-- The four required columns are all recognized columns. -/
theorem required_sub_events : ∀ c ∈ requiredCols, c ∈ EVENTS_COLS := by decide

/-- A group key comes with a nonempty group. -/
theorem groupRows_ne_nil (df : DataFrame) (k : Int) (hk : k ∈ groupKeys df) :
    groupRows df k ≠ [] := by
  rw [groupKeys, mem_sortInts, mem_pdUnique, List.mem_filterMap] at hk
  obtain ⟨r, hr, hcell⟩ := hk
  rw [cellInt?_eq_some_iff] at hcell
  intro hnil
  have : r ∈ groupRows df k := by
    rw [groupRows, List.mem_filter]
    exact ⟨hr, by simp [hcell]⟩
  rw [hnil] at this
  exact absurd this (List.not_mem_nil r)

/-- C7 amended: for every length-limited column, a value longer than the
configured maximum is truncated to the exact prefix of that maximum length
(never rejected); but the configured maxima do not all fit the declared
widths — whenever the column's declared Events width is below its
configured maximum it is one of the seven oversized columns, and those
seven are exactly Address, CommandResponse, ControlMode, ControlScheme,
PumpState, SolenoidState and Label. -/
theorem C7_amended_truncation_exceeds_widths (col : String) (mx : Nat) (s : String)
    (hmem : (col, mx) ∈ MAXLEN) (hlen : mx ≤ s.length) :
    (pySlice mx s).data = s.data.take mx ∧
    (pySlice mx s).length = mx ∧
    (∀ w, eventsColWidth col = some w → w < mx →
      col ∈ ["Address", "CommandResponse", "ControlMode", "ControlScheme",
             "PumpState", "SolenoidState", "Label"]) ∧
    ((MAXLEN.filter (fun p => match eventsColWidth p.1 with
        | some w => decide (w < p.2)
        | none => true)).map (fun p => p.1)) =
      ["Address", "CommandResponse", "ControlMode", "ControlScheme",
       "PumpState", "SolenoidState", "Label"] := by
  have hclosed : ((MAXLEN.filter (fun p => match eventsColWidth p.1 with
      | some w => decide (w < p.2)
      | none => true)).map (fun p => p.1)) =
      ["Address", "CommandResponse", "ControlMode", "ControlScheme",
       "PumpState", "SolenoidState", "Label"] := by decide
  refine ⟨rfl, ?_, ?_, hclosed⟩
  · have h1 : (pySlice mx s).length = (s.data.take mx).length := rfl
    have h2 : s.length = s.data.length := rfl
    rw [h1, List.length_take]
    omega
  · intro w hw hlt
    have hmemf : (col, mx) ∈ MAXLEN.filter (fun p => match eventsColWidth p.1 with
        | some w => decide (w < p.2)
        | none => true) := by
      rw [List.mem_filter]
      refine ⟨hmem, ?_⟩
      show (match eventsColWidth col with
        | some w => decide (w < mx)
        | none => true) = true
      rw [hw]
      simpa using hlt
    have hcolmem := List.mem_map_of_mem (fun p => p.1) hmemf
    rw [hclosed] at hcolmem
    exact hcolmem

/-- C7 witness: the truncation theorem instantiated at the Address column
(maximum 50) and a fifty-one-character value. -/
theorem C7_witness :
    ("Address", 50) ∈ MAXLEN ∧
    (50 : Nat) ≤ (String.mk (List.replicate 51 'A')).length ∧
    ((pySlice 50 (String.mk (List.replicate 51 'A'))).data
        = (String.mk (List.replicate 51 'A')).data.take 50 ∧
     (pySlice 50 (String.mk (List.replicate 51 'A'))).length = 50 ∧
     (∀ w, eventsColWidth "Address" = some w → w < 50 →
       "Address" ∈ ["Address", "CommandResponse", "ControlMode", "ControlScheme",
                    "PumpState", "SolenoidState", "Label"]) ∧
     ((MAXLEN.filter (fun p => match eventsColWidth p.1 with
        | some w => decide (w < p.2)
        | none => true)).map (fun p => p.1)) =
      ["Address", "CommandResponse", "ControlMode", "ControlScheme",
       "PumpState", "SolenoidState", "Label"]) :=
  ⟨by decide, by decide,
    C7_amended_truncation_exceeds_widths "Address" 50 (String.mk (List.replicate 51 'A'))
      (by decide) (by decide)⟩

/-- C10: column validation checks only the presence of Session_ID,
Operator_ID, Timestamp and Shift — any chunk whose cleaned header carries
those four prepares successfully regardless of which other recognized
columns are absent; every other recognized Event column is NOT NULL without
a default in the schema (so its absence can only surface at the store as an
event-insert integrity failure); and the only validation error the
preparation step can ever produce is a missing-required-columns error
naming required columns. -/
theorem C10_validation_checks_only_required (chunk : DataFrame)
    (h : ∀ c ∈ requiredCols, (cleanCols chunk).cols.contains c = true) :
    (∃ df, prepChunk chunk = .ok df) ∧
    ((EVENTS_COLS.filter (fun c => !requiredCols.contains c && c != "Shift")).all
      (fun c => eventsNonNullNoDefault.contains c) = true) ∧
    (∀ chunk' e, prepChunk chunk' = .error e →
      ∃ cols, e = .missingColumns cols ∧ cols ≠ [] ∧ ∀ c ∈ cols, c ∈ requiredCols) := by
  refine ⟨?_, by decide, ?_⟩
  · simp only [prepChunk]
    split
    · rename_i hcond
      exfalso
      rw [Bool.not_eq_true'] at hcond
      have hne : (requiredCols.filter (fun col =>
          !(selectCols (cleanCols chunk)
            (EVENTS_COLS.filter (fun col => (cleanCols chunk).cols.contains col))).cols.contains col)) ≠ [] := by
        intro hn
        rw [hn] at hcond
        simp at hcond
      obtain ⟨c, hc⟩ := List.exists_mem_of_ne_nil _ hne
      rw [List.mem_filter] at hc
      obtain ⟨hcr, hcp⟩ := hc
      have hkeep : c ∈ EVENTS_COLS.filter (fun col => (cleanCols chunk).cols.contains col) := by
        rw [List.mem_filter]
        exact ⟨required_sub_events c hcr, h c hcr⟩
      have htrue : (selectCols (cleanCols chunk)
          (EVENTS_COLS.filter (fun col => (cleanCols chunk).cols.contains col))).cols.contains c = true :=
        List.elem_iff.mpr hkeep
      rw [htrue] at hcp
      exact absurd hcp (by simp)
    · exact ⟨_, rfl⟩
  · intro chunk' e he
    simp only [prepChunk] at he
    split at he
    · rename_i hcond
      injection he with he2
      subst he2
      refine ⟨_, rfl, ?_, ?_⟩
      · intro hn
        rw [hn] at hcond
        simp at hcond
      · intro c hc
        exact (List.mem_filter.mp hc).1
    · cases he

/-- C10 witness: the validation theorem instantiated at the four-column
chunk `chunk4`. -/
theorem C10_witness :
    (∃ df, prepChunk chunk4 = .ok df) ∧
    ((EVENTS_COLS.filter (fun c => !requiredCols.contains c && c != "Shift")).all
      (fun c => eventsNonNullNoDefault.contains c) = true) ∧
    (∀ chunk' e, prepChunk chunk' = .error e →
      ∃ cols, e = .missingColumns cols ∧ cols ≠ [] ∧ ∀ c ∈ cols, c ∈ requiredCols) :=
  C10_validation_checks_only_required chunk4 (by decide)

/-- C5: for every session identifier of a well-typed batch, the derived
aggregate has Session_Start equal to the minimum and Session_End equal to
the maximum timestamp of that session's rows, Operator_ID from the
session's first row in the batch, Shift_ID via the fixed trimmed
case-insensitive lookup (DAY to 1, NIGHT to 2), and the fixed default
inactivity threshold 10. -/
theorem C5_derived_session_aggregates (df : DataFrame) (k : Int)
    (hk : k ∈ groupKeys df)
    (hts : ∀ r ∈ df.rows, ∃ n, cellAt df.cols r "Timestamp" = Cell.dt n)
    (hop : ∀ r ∈ df.rows, ∃ s, cellAt df.cols r "Operator_ID" = Cell.str s) :
    (mkAgg df k).Session_ID = k ∧
    (∃ r0 rest, groupRows df k = r0 :: rest ∧
       (mkAgg df k).opCell = cellAt df.cols r0 "Operator_ID") ∧
    (∃ m, (mkAgg df k).startCell = .dt m ∧
       Cell.dt m ∈ (groupRows df k).map (fun r => cellAt df.cols r "Timestamp") ∧
       ∀ r ∈ groupRows df k, ∀ n, cellAt df.cols r "Timestamp" = Cell.dt n → m ≤ n) ∧
    (∃ m, (mkAgg df k).endCell = .dt m ∧
       Cell.dt m ∈ (groupRows df k).map (fun r => cellAt df.cols r "Timestamp") ∧
       ∀ r ∈ groupRows df k, ∀ n, cellAt df.cols r "Timestamp" = Cell.dt n → n ≤ m) ∧
    (∀ i, shiftIdOf (mkAgg df k).shiftCell = some i →
       (toSessionRow (mkAgg df k)).Shift_ID = i) ∧
    shiftIdOf (.str "DAY") = some 1 ∧
    shiftIdOf (.str "NIGHT") = some 2 ∧
    shiftIdOf (.str " day ") = some 1 ∧
    (toSessionRow (mkAgg df k)).Inactivity_Threshold_Min = 10 ∧
    (toSessionRow (mkAgg df k)).Operator_ID = cellToStr (mkAgg df k).opCell := by
  obtain ⟨r0, rest, hg⟩ := List.exists_cons_of_ne_nil (groupRows_ne_nil df k hk)
  have hsub : ∀ r ∈ groupRows df k, r ∈ df.rows := by
    intro r hr
    exact (List.mem_filter.mp (by rw [groupRows] at hr; exact hr)).1
  obtain ⟨n0, hn0⟩ := hts r0 (hsub r0 (hg ▸ List.mem_cons_self _ _))
  refine ⟨rfl, ?_, ?_, ?_, ?_, by decide, by decide, by decide, rfl, rfl⟩
  · refine ⟨r0, rest, hg, ?_⟩
    show aggFirst ((groupRows df k).map (fun r => cellAt df.cols r "Operator_ID")) = _
    rw [aggFirst_eq_head _ ?hna, hg]
    · rfl
    case hna =>
      intro c hc
      rw [List.mem_map] at hc
      obtain ⟨r, hr, rfl⟩ := hc
      obtain ⟨s, hs⟩ := hop r (hsub r hr)
      rw [hs]
      exact fun h => Cell.noConfusion h
  · show ∃ m, aggMinTs ((groupRows df k).map (fun r => cellAt df.cols r "Timestamp")) = .dt m ∧ _
    have hfm : ((groupRows df k).map (fun r => cellAt df.cols r "Timestamp")).filterMap tsOf
        = n0 :: ((rest.map (fun r => cellAt df.cols r "Timestamp")).filterMap tsOf) := by
      rw [hg, List.map_cons, List.filterMap_cons, hn0]
      rfl
    refine ⟨(rest.map (fun r => cellAt df.cols r "Timestamp")).filterMap tsOf |>.foldl min n0, ?_, ?_, ?_⟩
    · rw [aggMinTs, hfm]
    · rw [← mem_filterMap_tsOf, hfm]
      rcases foldl_min_mem ((rest.map (fun r => cellAt df.cols r "Timestamp")).filterMap tsOf) n0 with h | h
      · rw [h]; exact List.mem_cons_self _ _
      · exact List.mem_cons_of_mem _ h
    · intro r hr n hn
      have : n ∈ ((groupRows df k).map (fun r => cellAt df.cols r "Timestamp")).filterMap tsOf := by
        rw [mem_filterMap_tsOf, List.mem_map]
        exact ⟨r, hr, hn⟩
      rw [hfm] at this
      rcases List.mem_cons.mp this with rfl | hm
      · exact (foldl_min_le _ n).1
      · exact (foldl_min_le _ n0).2 n hm
  · show ∃ m, aggMaxTs ((groupRows df k).map (fun r => cellAt df.cols r "Timestamp")) = .dt m ∧ _
    have hfm : ((groupRows df k).map (fun r => cellAt df.cols r "Timestamp")).filterMap tsOf
        = n0 :: ((rest.map (fun r => cellAt df.cols r "Timestamp")).filterMap tsOf) := by
      rw [hg, List.map_cons, List.filterMap_cons, hn0]
      rfl
    refine ⟨(rest.map (fun r => cellAt df.cols r "Timestamp")).filterMap tsOf |>.foldl max n0, ?_, ?_, ?_⟩
    · rw [aggMaxTs, hfm]
    · rw [← mem_filterMap_tsOf, hfm]
      rcases foldl_max_mem ((rest.map (fun r => cellAt df.cols r "Timestamp")).filterMap tsOf) n0 with h | h
      · rw [h]; exact List.mem_cons_self _ _
      · exact List.mem_cons_of_mem _ h
    · intro r hr n hn
      have : n ∈ ((groupRows df k).map (fun r => cellAt df.cols r "Timestamp")).filterMap tsOf := by
        rw [mem_filterMap_tsOf, List.mem_map]
        exact ⟨r, hr, hn⟩
      rw [hfm] at this
      rcases List.mem_cons.mp this with rfl | hm
      · exact (foldl_max_le _ n).1
      · exact (foldl_max_le _ n0).2 n hm
  · intro i hi
    show (shiftIdOf (mkAgg df k).shiftCell).getD 0 = i
    rw [hi]
    rfl

/-- C5 witness: the aggregation theorem instantiated at the two-row batch
`dfPrepared` and session 1. -/
theorem C5_witness :
    (mkAgg dfPrepared 1).Session_ID = 1 ∧
    (∃ r0 rest, groupRows dfPrepared 1 = r0 :: rest ∧
       (mkAgg dfPrepared 1).opCell = cellAt dfPrepared.cols r0 "Operator_ID") ∧
    (∃ m, (mkAgg dfPrepared 1).startCell = .dt m ∧
       Cell.dt m ∈ (groupRows dfPrepared 1).map (fun r => cellAt dfPrepared.cols r "Timestamp") ∧
       ∀ r ∈ groupRows dfPrepared 1, ∀ n, cellAt dfPrepared.cols r "Timestamp" = Cell.dt n → m ≤ n) ∧
    (∃ m, (mkAgg dfPrepared 1).endCell = .dt m ∧
       Cell.dt m ∈ (groupRows dfPrepared 1).map (fun r => cellAt dfPrepared.cols r "Timestamp") ∧
       ∀ r ∈ groupRows dfPrepared 1, ∀ n, cellAt dfPrepared.cols r "Timestamp" = Cell.dt n → n ≤ m) ∧
    (∀ i, shiftIdOf (mkAgg dfPrepared 1).shiftCell = some i →
       (toSessionRow (mkAgg dfPrepared 1)).Shift_ID = i) ∧
    shiftIdOf (.str "DAY") = some 1 ∧
    shiftIdOf (.str "NIGHT") = some 2 ∧
    shiftIdOf (.str " day ") = some 1 ∧
    (toSessionRow (mkAgg dfPrepared 1)).Inactivity_Threshold_Min = 10 ∧
    (toSessionRow (mkAgg dfPrepared 1)).Operator_ID = cellToStr (mkAgg dfPrepared 1).opCell :=
  C5_derived_session_aggregates dfPrepared 1 (by decide)
    (by
      intro r hr
      rcases List.mem_cons.mp hr with rfl | hr2
      · exact ⟨200, rfl⟩
      · rcases List.mem_cons.mp hr2 with rfl | hr3
        · exact ⟨100, rfl⟩
        · exact absurd hr3 (List.not_mem_nil r))
    (by
      intro r hr
      rcases List.mem_cons.mp hr with rfl | hr2
      · exact ⟨"OP1", rfl⟩
      · rcases List.mem_cons.mp hr2 with rfl | hr3
        · exact ⟨"OP2", rfl⟩
        · exact absurd hr3 (List.not_mem_nil r))

/-- Commit makes the durable and current states coincide. -/
theorem TxDB_commit_balanced (t : TxDB) :
    (TxDB.commit t).current = (TxDB.commit t).committed := rfl

/-- An ensure_operators raise leaves the session state untouched. -/
theorem eo_error_state (t t' : TxDB) (ids : List String) (e : LoadError)
    (h : ensure_operators t ids = .error (e, t')) :
    t' = t ∧ e = .integrityError "Operators" := by
  simp only [ensure_operators] at h
  split at h
  · cases h
  · split at h
    · cases h
    · split at h
      · cases h
      · injection h with hp
        rw [Prod.mk.injEq] at hp
        exact ⟨hp.2.symm, hp.1.symm⟩

/-- ensure_operators either inserts nothing or appends freshly created
operator rows and commits. -/
theorem eo_ok_cases (t t' : TxDB) (ids : List String)
    (h : ensure_operators t ids = .ok t') :
    t' = t ∨ ∃ rows : List OperatorRow,
      (∀ o ∈ rows, o.Operator_Rank = true) ∧
      t' = TxDB.commit
        { t with current := { t.current with operators := t.current.operators ++ rows } } := by
  simp only [ensure_operators] at h
  split at h
  · injection h with ht
    exact Or.inl ht.symm
  · split at h
    · injection h with ht
      exact Or.inl ht.symm
    · split at h
      · injection h with ht
        refine Or.inr ⟨_, ?_, ht.symm⟩
        intro o ho
        rw [List.mem_map] at ho
        obtain ⟨oid, _, rfl⟩ := ho
        rfl
      · cases h

/-- After a successful ensure_operators, every incoming id is present. -/
theorem eo_subset (t t' : TxDB) (ids : List String)
    (h : ensure_operators t ids = .ok t') :
    ∀ oid ∈ ids, t'.current.operators.any (fun o => o.Operator_ID == oid) = true := by
  simp only [ensure_operators] at h
  split at h
  · rename_i hemp
    rw [List.isEmpty_iff] at hemp
    intro oid hoid
    rw [hemp] at hoid
    exact absurd hoid (List.not_mem_nil oid)
  · split at h
    · rename_i hmiss
      injection h with ht
      subst ht
      rename_i hemp
      rw [List.isEmpty_iff, List.filter_eq_nil_iff] at hmiss
      intro oid hoid
      have hm := hmiss oid hoid
      simpa using hm
    · split at h
      · injection h with ht
        subst ht
        intro oid hoid
        show ((t.current.operators ++ _).any (fun o => o.Operator_ID == oid)) = true
        rw [List.any_append]
        by_cases hany : t.current.operators.any (fun o => o.Operator_ID == oid) = true
        · rw [hany]
          rfl
        · rw [Bool.not_eq_true] at hany
          have hmem : oid ∈ ids.filter
              (fun oid => !(t.current.operators.any (fun o => o.Operator_ID == oid))) := by
            rw [List.mem_filter]
            exact ⟨hoid, by rw [hany]; rfl⟩
          have hr : (OperatorRow.mk oid true) ∈ (ids.filter
              (fun oid => !(t.current.operators.any (fun o => o.Operator_ID == oid)))).map
              (fun oid => OperatorRow.mk oid true) := List.mem_map_of_mem _ hmem
          have : ((ids.filter
              (fun oid => !(t.current.operators.any (fun o => o.Operator_ID == oid)))).map
              (fun oid => OperatorRow.mk oid true)).any (fun o => o.Operator_ID == oid) = true := by
            rw [List.any_eq_true]
            exact ⟨_, hr, by simp⟩
          rw [this, hany]
          rfl
      · cases h

/-- ensure_operators is the identity when every incoming id is present. -/
theorem eo_noop (t : TxDB) (ids : List String)
    (hall : ∀ oid ∈ ids, t.current.operators.any (fun o => o.Operator_ID == oid) = true) :
    ensure_operators t ids = .ok t := by
  simp only [ensure_operators]
  split
  · rfl
  · have hm : ids.filter
        (fun oid => !(t.current.operators.any (fun o => o.Operator_ID == oid))) = [] := by
      rw [List.filter_eq_nil_iff]
      intro oid hoid
      simp [hall oid hoid]
    rw [hm]
    rfl

/-- ensure_operators succeeds on a duplicate-free id list (as produced by
pandas unique), appending exactly the missing operator rows; the durable
state stays in step when it was in step before. -/
theorem eo_ok_of_nodup (t : TxDB) (ids : List String) (hnd : ids.Nodup) :
    ∃ t', ensure_operators t ids = .ok t' ∧
      t'.current.operators = t.current.operators ++
        ((ids.filter
          (fun oid => !(t.current.operators.any (fun o => o.Operator_ID == oid)))).map
          (fun oid => OperatorRow.mk oid true)) ∧
      t'.current.sessions = t.current.sessions ∧
      t'.current.events = t.current.events ∧
      t'.current.shift_defs = t.current.shift_defs ∧
      t'.current.next_event_id = t.current.next_event_id ∧
      (t.current = t.committed → t'.current = t'.committed) := by
  simp only [ensure_operators]
  split
  · rename_i hemp
    rw [List.isEmpty_iff] at hemp
    refine ⟨t, rfl, ?_, rfl, rfl, rfl, rfl, fun hb => hb.symm ▸ rfl⟩
    rw [hemp, List.filter_nil, List.map_nil, List.append_nil]
  · split
    · rename_i hmiss
      rw [List.isEmpty_iff] at hmiss
      refine ⟨t, rfl, ?_, rfl, rfl, rfl, rfl, fun hb => hb.symm ▸ rfl⟩
      rw [hmiss, List.map_nil, List.append_nil]
    · split
      · exact ⟨_, rfl, rfl, rfl, rfl, rfl, rfl, fun _ => rfl⟩
      · rename_i hcond
        exfalso
        apply hcond
        rw [Bool.and_eq_true]
        constructor
        · have hproj : ((ids.filter
              (fun oid => !(t.current.operators.any (fun o => o.Operator_ID == oid)))).map
              (fun oid => OperatorRow.mk oid true)).map (fun r => r.Operator_ID) =
              ids.filter
                (fun oid => !(t.current.operators.any (fun o => o.Operator_ID == oid))) := by
            rw [List.map_map]
            exact List.map_id _
          rw [hproj, distinctB_eq_true_iff]
          exact hnd.filter _
        · rw [List.all_eq_true]
          intro r hr
          rw [List.mem_map] at hr
          obtain ⟨oid, hoid, rfl⟩ := hr
          have := (List.mem_filter.mp hoid).2
          simpa using this

/-- An ensure_sessions raise leaves the session state untouched. -/
theorem es_error_state (t t' : TxDB) (df : DataFrame) (e : LoadError)
    (h : ensure_sessions t df = .error (e, t')) : t' = t := by
  simp only [ensure_sessions] at h
  split at h
  · injection h with hp
    rw [Prod.mk.injEq] at hp
    exact hp.2.symm
  · split at h
    · cases h
    · split at h
      · cases h
      · injection h with hp
        rw [Prod.mk.injEq] at hp
        exact hp.2.symm

/-- With an unrecognized derived shift label present, ensure_sessions raises
the ValueError naming up to ten offending values, before any insert. -/
theorem es_badShift (t : TxDB) (df : DataFrame)
    (hbad : (sessionAggs df).filter (fun a => (shiftIdOf a.shiftCell).isNone) ≠ []) :
    ensure_sessions t df = .error
      (.badShift ((((sessionAggs df).filter (fun a => (shiftIdOf a.shiftCell).isNone)).map
        (fun a => a.shiftCell)).take 10), t) := by
  simp only [ensure_sessions]
  split
  · rfl
  · rename_i hcond
    exfalso
    apply hcond
    have hbe : ((sessionAggs df).filter (fun a => (shiftIdOf a.shiftCell).isNone)).isEmpty = false := by
      cases hx : ((sessionAggs df).filter (fun a => (shiftIdOf a.shiftCell).isNone)).isEmpty
      · rfl
      · exact absurd (List.isEmpty_iff.mp hx) hbad
    rw [hbe]
    rfl

/-- A successful ensure_sessions implies every derived shift label was
recognized. -/
theorem es_bad_empty_of_ok (t t' : TxDB) (df : DataFrame)
    (h : ensure_sessions t df = .ok t') :
    (sessionAggs df).filter (fun a => (shiftIdOf a.shiftCell).isNone) = [] := by
  simp only [ensure_sessions] at h
  split at h
  · cases h
  · rename_i hcond
    cases hbe : ((sessionAggs df).filter (fun a => (shiftIdOf a.shiftCell).isNone)).isEmpty
    · exfalso
      apply hcond
      rw [hbe]
      rfl
    · exact List.isEmpty_iff.mp hbe

/-- ensure_sessions either inserts nothing or appends derived session rows
and commits. -/
theorem es_ok_cases (t t' : TxDB) (df : DataFrame)
    (h : ensure_sessions t df = .ok t') :
    t' = t ∨ ∃ rows : List SessionRow,
      t' = TxDB.commit
        { t with current := { t.current with sessions := t.current.sessions ++ rows } } := by
  simp only [ensure_sessions] at h
  split at h
  · cases h
  · split at h
    · injection h with ht
      exact Or.inl ht.symm
    · split at h
      · injection h with ht
        exact Or.inr ⟨_, ht.symm⟩
      · cases h

/-- After a successful ensure_sessions, every group key is present. -/
theorem es_subset (t t' : TxDB) (df : DataFrame)
    (h : ensure_sessions t df = .ok t') :
    ∀ k ∈ groupKeys df, t'.current.sessions.any (fun s => s.Session_ID == k) = true := by
  simp only [ensure_sessions] at h
  split at h
  · cases h
  · split at h
    · rename_i hins
      injection h with ht
      subst ht
      rw [List.isEmpty_iff, List.filter_eq_nil_iff] at hins
      intro k hk
      have hrec : (toSessionRow (mkAgg df k)) ∈ (sessionAggs df).map toSessionRow :=
        List.mem_map_of_mem _ (List.mem_map_of_mem _ hk)
      have hm := hins _ hrec
      simpa using hm
    · split at h
      · injection h with ht
        subst ht
        intro k hk
        show ((t.current.sessions ++ _).any (fun s => s.Session_ID == k)) = true
        rw [List.any_append]
        by_cases hany : t.current.sessions.any (fun s => s.Session_ID == k) = true
        · rw [hany]
          rfl
        · rw [Bool.not_eq_true] at hany
          have hrec : (toSessionRow (mkAgg df k)) ∈
              ((sessionAggs df).map toSessionRow).filter
                (fun r => !(t.current.sessions.any (fun s => s.Session_ID == r.Session_ID))) := by
            rw [List.mem_filter]
            refine ⟨List.mem_map_of_mem _ (List.mem_map_of_mem _ hk), ?_⟩
            show (!(t.current.sessions.any
              (fun s => s.Session_ID == (toSessionRow (mkAgg df k)).Session_ID))) = true
            rw [show (toSessionRow (mkAgg df k)).Session_ID = k from rfl, hany]
            rfl
          have hins : (((sessionAggs df).map toSessionRow).filter
              (fun r => !(t.current.sessions.any (fun s => s.Session_ID == r.Session_ID)))).any
              (fun s => s.Session_ID == k) = true := by
            rw [List.any_eq_true]
            exact ⟨_, hrec, by rw [beq_iff_eq]; exact rfl⟩
          rw [hins, hany]
          rfl
      · cases h

/-- ensure_sessions is the identity when every derived shift label is
recognized and every group key is already present. -/
theorem es_noop (t : TxDB) (df : DataFrame)
    (hbad : (sessionAggs df).filter (fun a => (shiftIdOf a.shiftCell).isNone) = [])
    (hall : ∀ k ∈ groupKeys df, t.current.sessions.any (fun s => s.Session_ID == k) = true) :
    ensure_sessions t df = .ok t := by
  simp only [ensure_sessions]
  split
  · rename_i hcond
    exfalso
    rw [hbad] at hcond
    simp at hcond
  · have hti : ((sessionAggs df).map toSessionRow).filter
        (fun r => !(t.current.sessions.any (fun s => s.Session_ID == r.Session_ID))) = [] := by
      rw [List.filter_eq_nil_iff]
      intro r hr
      rw [List.mem_map] at hr
      obtain ⟨a, ha, rfl⟩ := hr
      rw [sessionAggs, List.mem_map] at ha
      obtain ⟨k, hk, rfl⟩ := ha
      have hp := hall k hk
      intro hcontra
      rw [show (toSessionRow (mkAgg df k)).Session_ID = k from rfl] at hcontra
      rw [hp] at hcontra
      exact absurd hcontra (by simp)
    rw [hti]
    rfl

/-- ensure_sessions with all shifts recognized and the store constraints
satisfied appends exactly the not-yet-present derived rows. -/
theorem es_insert (t : TxDB) (df : DataFrame)
    (hbad : (sessionAggs df).filter (fun a => (shiftIdOf a.shiftCell).isNone) = [])
    (hcheck : sessionsCheck t.current (((sessionAggs df).map toSessionRow).filter
       (fun r => !(t.current.sessions.any (fun s => s.Session_ID == r.Session_ID)))) = true) :
    ∃ t', ensure_sessions t df = .ok t' ∧
      t'.current.sessions = t.current.sessions ++ (((sessionAggs df).map toSessionRow).filter
        (fun r => !(t.current.sessions.any (fun s => s.Session_ID == r.Session_ID)))) ∧
      t'.current.operators = t.current.operators ∧
      t'.current.events = t.current.events ∧
      t'.current.shift_defs = t.current.shift_defs ∧
      t'.current.next_event_id = t.current.next_event_id ∧
      (t.current = t.committed → t'.current = t'.committed) := by
  have hc1 : ¬ ((!((sessionAggs df).filter (fun a => (shiftIdOf a.shiftCell).isNone)).isEmpty) = true) := by
    rw [hbad]
    simp
  by_cases hti : (((sessionAggs df).map toSessionRow).filter
      (fun r => !(t.current.sessions.any (fun s => s.Session_ID == r.Session_ID)))).isEmpty = true
  · have heq : ensure_sessions t df = .ok t := by
      simp only [ensure_sessions]
      rw [if_neg hc1, if_pos hti]
    rw [List.isEmpty_iff] at hti
    refine ⟨t, heq, ?_, rfl, rfl, rfl, rfl, fun hb => hb.symm ▸ rfl⟩
    rw [hti, List.append_nil]
  · have heq : ensure_sessions t df = .ok (TxDB.commit
        { t with current := { t.current with sessions := t.current.sessions ++
          (((sessionAggs df).map toSessionRow).filter
            (fun r => !(t.current.sessions.any (fun s => s.Session_ID == r.Session_ID)))) } }) := by
      simp only [ensure_sessions]
      rw [if_neg hc1, if_neg hti, if_pos hcheck]
    exact ⟨_, heq, rfl, rfl, rfl, rfl, rfl, fun _ => rfl⟩

/-- Inversion of a successful event insert: the constraints held and the
result is the committed extension by the assigned rows. -/
theorem ie_ok_inv (t t' : TxDB) (df : DataFrame) (n : Nat)
    (h : insertEventsStep t df = .ok (t', n)) :
    eventsCheck t.current.operators t.current.sessions (eventRecords df) = true ∧
    n = (eventRecords df).length ∧
    t' = TxDB.commit
      { t with current :=
        { t.current with
          events := t.current.events ++ assignEventIds t.current.next_event_id (eventRecords df)
          next_event_id := t.current.next_event_id + (eventRecords df).length } } := by
  simp only [insertEventsStep] at h
  split at h
  · rename_i hc
    injection h with hp
    rw [Prod.mk.injEq] at hp
    exact ⟨hc, hp.2.symm, hp.1.symm⟩
  · cases h

/-- Inversion of a failing event insert: the constraints were violated, the
raise is the Events IntegrityError, and the session state is untouched. -/
theorem ie_error_state (t t' : TxDB) (df : DataFrame) (e : LoadError)
    (h : insertEventsStep t df = .error (e, t')) :
    t' = t ∧ e = .integrityError "Events" ∧
    eventsCheck t.current.operators t.current.sessions (eventRecords df) = false := by
  simp only [insertEventsStep] at h
  split at h
  · cases h
  · rename_i hc
    injection h with hp
    rw [Prod.mk.injEq] at hp
    rw [Bool.not_eq_true] at hc
    exact ⟨hp.2.symm, hp.1.symm, hc⟩

/-- The event insert succeeds whenever the store constraints hold. -/
theorem ie_of_check (t : TxDB) (df : DataFrame)
    (hc : eventsCheck t.current.operators t.current.sessions (eventRecords df) = true) :
    insertEventsStep t df = .ok (TxDB.commit
      { t with current :=
        { t.current with
          events := t.current.events ++ assignEventIds t.current.next_event_id (eventRecords df)
          next_event_id := t.current.next_event_id + (eventRecords df).length } },
      (eventRecords df).length) := by
  simp only [insertEventsStep]
  rw [if_pos hc]

/-- Inversion of a successful chunk: the four pipeline stages succeeded in
order. -/
theorem processChunk_ok_inv (t t' : TxDB) (c : DataFrame) (n : Nat)
    (h : processChunk t c = .ok (t', n)) :
    ∃ df t1 t2, prepChunk c = .ok df ∧
      ensure_operators t (operatorIdsOf df) = .ok t1 ∧
      ensure_sessions t1 df = .ok t2 ∧
      insertEventsStep t2 df = .ok (t', n) := by
  simp only [processChunk] at h
  split at h
  · cases h
  · rename_i df hdf
    split at h
    · cases h
    · rename_i t1 ht1
      split at h
      · cases h
      · rename_i t2 ht2
        exact ⟨df, t1, t2, hdf, ht1, ht2, h⟩

/-- Inversion of a failing chunk: the raise came from exactly one of the
four stages, the earlier stages having succeeded. -/
theorem processChunk_error_inv (t t' : TxDB) (c : DataFrame) (e : LoadError)
    (h : processChunk t c = .error (e, t')) :
    (prepChunk c = .error e ∧ t' = t) ∨
    (∃ df, prepChunk c = .ok df ∧
       ensure_operators t (operatorIdsOf df) = .error (e, t')) ∨
    (∃ df t1, prepChunk c = .ok df ∧ ensure_operators t (operatorIdsOf df) = .ok t1 ∧
       ensure_sessions t1 df = .error (e, t')) ∨
    (∃ df t1 t2, prepChunk c = .ok df ∧ ensure_operators t (operatorIdsOf df) = .ok t1 ∧
       ensure_sessions t1 df = .ok t2 ∧ insertEventsStep t2 df = .error (e, t')) := by
  simp only [processChunk] at h
  split at h
  · rename_i e0 he0
    injection h with hp
    rw [Prod.mk.injEq] at hp
    exact Or.inl ⟨hp.1 ▸ he0, hp.2.symm⟩
  · rename_i df hdf
    split at h
    · rename_i p hp1
      injection h with hp
      exact Or.inr (Or.inl ⟨df, hdf, hp1.trans (congrArg Except.error hp)⟩)
    · rename_i t1 ht1
      split at h
      · rename_i p hp2
        injection h with hp
        exact Or.inr (Or.inr (Or.inl ⟨df, t1, hdf, ht1, hp2.trans (congrArg Except.error hp)⟩))
      · rename_i t2 ht2
        exact Or.inr (Or.inr (Or.inr ⟨df, t1, t2, hdf, ht1, ht2, h⟩))

/-- Inversion of a clean single-chunk run. -/
theorem load_single_ok_inv (d d1 : DB) (c : DataFrame) (n : Nat)
    (h : load_events_csv d [c] = ⟨none, d1, n⟩) :
    ∃ t', processChunk ⟨d, d⟩ c = .ok (t', n) ∧ d1 = t'.committed := by
  simp only [load_events_csv, loadChunks] at h
  split at h
  · rename_i t' m hpc
    rw [LoadResult.mk.injEq] at h
    refine ⟨t', ?_, h.2.1.symm⟩
    rw [← h.2.2, Nat.zero_add]
    exact hpc
  · rename_i e t'' hpc
    rw [LoadResult.mk.injEq] at h
    exact absurd h.1 (by simp)

/-- Composition of a clean single-chunk run from a successful chunk. -/
theorem load_single_of_ok (d : DB) (c : DataFrame) (t' : TxDB) (n : Nat)
    (h : processChunk ⟨d, d⟩ c = .ok (t', n)) :
    load_events_csv d [c] = ⟨none, t'.committed, n⟩ := by
  simp only [load_events_csv, loadChunks, h, Nat.zero_add]

/-- C1 amended: the chunk's writes are committed stepwise (operators,
sessions, events each commit on their own), so the session is always in
step with the durable store at every raise point — a failure finds nothing
to roll back, the operator and session writes of the failed chunk persist,
and only the chunk's event rows are guaranteed absent after a failure. -/
theorem C1_amended_commits_are_per_step (t : TxDB) (c : DataFrame)
    (hbal : t.current = t.committed) :
    (∀ t' n, processChunk t c = .ok (t', n) → t'.current = t'.committed) ∧
    (∀ e t', processChunk t c = .error (e, t') →
      t'.current = t'.committed ∧ t'.committed.events = t.committed.events) := by
  constructor
  · intro t' n h
    obtain ⟨df, t1, t2, hdf, h1, h2, h3⟩ := processChunk_ok_inv t t' c n h
    obtain ⟨_, _, ht'⟩ := ie_ok_inv t2 t' df n h3
    rw [ht']
    rfl
  · intro e t' h
    rcases processChunk_error_inv t t' c e h with
      ⟨_, ht'⟩ | ⟨df, hdf, herr⟩ | ⟨df, t1, hdf, h1, herr⟩ | ⟨df, t1, t2, hdf, h1, h2, herr⟩
    · rw [ht']
      exact ⟨hbal, rfl⟩
    · obtain ⟨ht', _⟩ := eo_error_state t t' _ e herr
      rw [ht']
      exact ⟨hbal, rfl⟩
    · have ht' := es_error_state t1 t' df e herr
      rw [ht']
      rcases eo_ok_cases t t1 _ h1 with ht1 | ⟨rows, _, ht1⟩ <;> rw [ht1] <;>
        first
          | exact ⟨hbal, rfl⟩
          | exact ⟨rfl, show t.current.events = t.committed.events from congrArg DB.events hbal⟩
    · obtain ⟨ht', _, _⟩ := ie_error_state t2 t' df e herr
      rw [ht']
      rcases eo_ok_cases t t1 _ h1 with ht1 | ⟨rows1, _, ht1⟩ <;>
        rcases es_ok_cases t1 t2 df h2 with ht2 | ⟨rows2, ht2⟩ <;>
          rw [ht2, ht1] <;>
            first
              | exact ⟨hbal, rfl⟩
              | exact ⟨rfl, show t.current.events = t.committed.events from congrArg DB.events hbal⟩

/-- C1 witness: the stepwise-commit theorem instantiated at the initialized
store and the four-column chunk. -/
theorem C1_witness :
    (∀ t' n, processChunk ⟨dInit, dInit⟩ chunk4 = .ok (t', n) → t'.current = t'.committed) ∧
    (∀ e t', processChunk ⟨dInit, dInit⟩ chunk4 = .error (e, t') →
      t'.current = t'.committed ∧ t'.committed.events = dInit.events) :=
  C1_amended_commits_are_per_step ⟨dInit, dInit⟩ chunk4 rfl

/-- C3 amended: when some session's derived shift label is unrecognized,
the chunk aborts with a ValueError naming (up to ten of) the offending
values; no Session or Event rows of the chunk are committed by then, but
ensure_operators has already inserted and committed the chunk's missing
Operator rows before the abort. -/
theorem C3_amended_abort_after_operator_commit (t : TxDB) (c : DataFrame) (df : DataFrame)
    (hbal : t.current = t.committed)
    (hprep : prepChunk c = .ok df)
    (hbad : (sessionAggs df).filter (fun a => (shiftIdOf a.shiftCell).isNone) ≠ []) :
    ∃ ex t', processChunk t c = .error (.badShift ex, t') ∧
      ex ≠ [] ∧ (∀ v ∈ ex, shiftIdOf v = none) ∧
      t'.committed.sessions = t.committed.sessions ∧
      t'.committed.events = t.committed.events ∧
      (∃ rows : List OperatorRow, t'.committed.operators = t.committed.operators ++ rows) := by
  have hnd : (operatorIdsOf df).Nodup := by
    rw [operatorIdsOf]
    exact nodup_pdUnique _
  obtain ⟨t1, h1, hops, hsess, hev, hsd, hnid, hbal1⟩ := eo_ok_of_nodup t (operatorIdsOf df) hnd
  have hbs := es_badShift t1 df hbad
  have hb1 : t1.committed = t1.current := (hbal1 hbal).symm
  refine ⟨(((sessionAggs df).filter (fun a => (shiftIdOf a.shiftCell).isNone)).map
      (fun a => a.shiftCell)).take 10, t1, ?_, ?_, ?_, ?_, ?_, ?_⟩
  · simp only [processChunk, hprep, h1, hbs]
  · intro hnil
    apply hbad
    rcases List.take_eq_nil_iff.mp hnil with h10 | hmap
    · cases h10
    · exact List.map_eq_nil_iff.mp hmap
  · intro v hv
    have hv2 := List.mem_of_mem_take hv
    rw [List.mem_map] at hv2
    obtain ⟨a, ha, rfl⟩ := hv2
    have hno := (List.mem_filter.mp ha).2
    rw [Option.isNone_iff_eq_none] at hno
    exact hno
  · rw [hb1, hsess, hbal]
  · rw [hb1, hev, hbal]
  · exact ⟨(operatorIdsOf df).filter
        (fun oid => !(t.current.operators.any (fun o => o.Operator_ID == oid)))
      |>.map (fun oid => OperatorRow.mk oid true),
      by rw [hb1, hops, hbal]⟩

/-- C3 witness: the abort theorem instantiated at the initialized store and
the SWING chunk. -/
theorem C3_witness :
    ∃ ex t', processChunk ⟨dInit, dInit⟩ chunkSwing = .error (.badShift ex, t') ∧
      ex ≠ [] ∧ (∀ v ∈ ex, shiftIdOf v = none) ∧
      t'.committed.sessions = dInit.sessions ∧
      t'.committed.events = dInit.events ∧
      (∃ rows : List OperatorRow, t'.committed.operators = dInit.operators ++ rows) :=
  C3_amended_abort_after_operator_commit ⟨dInit, dInit⟩ chunkSwing
    { cols := ["Session_ID", "Operator_ID", "Timestamp", "Shift"]
      rows := [[.int 7, .str "OP9", .dt 100, .str "SWING"]] }
    rfl rfl (by decide)

/-- C2 amended: re-running a clean single-chunk load on the same chunk
succeeds again with the same insert count — the reconciliation steps insert
nothing (no duplicate Operator or Session rows), and the Event insert
silently appends the same number of rows again under fresh autoincrement
keys instead of raising a uniqueness violation. -/
theorem C2_amended_rerun_duplicates_events (d d1 : DB) (c : DataFrame) (n : Nat)
    (h : load_events_csv d [c] = ⟨none, d1, n⟩) :
    ∃ d2, load_events_csv d1 [c] = ⟨none, d2, n⟩ ∧
      d2.operators = d1.operators ∧
      d2.sessions = d1.sessions ∧
      d2.events.length = d1.events.length + n := by
  obtain ⟨tf, hpc, hd1⟩ := load_single_ok_inv d d1 c n h
  obtain ⟨df, t1, t2, hdf, h1, h2, h3⟩ := processChunk_ok_inv ⟨d, d⟩ tf c n hpc
  obtain ⟨hcheck, hn, htf⟩ := ie_ok_inv t2 tf df n h3
  have hops_sub := eo_subset ⟨d, d⟩ t1 _ h1
  have hsess_sub := es_subset t1 t2 df h2
  have hbad := es_bad_empty_of_ok t1 t2 df h2
  have hops2 : t2.current.operators = t1.current.operators := by
    rcases es_ok_cases t1 t2 df h2 with ht2 | ⟨rows, ht2⟩ <;>
      (rw [ht2]; try exact rfl)
  have hd1ops : d1.operators = t2.current.operators := by
    rw [hd1, htf]
    exact rfl
  have hd1sess : d1.sessions = t2.current.sessions := by
    rw [hd1, htf]
    exact rfl
  have h1' : ensure_operators ⟨d1, d1⟩ (operatorIdsOf df) = .ok ⟨d1, d1⟩ := by
    apply eo_noop
    intro oid hoid
    show d1.operators.any (fun o => o.Operator_ID == oid) = true
    rw [hd1ops, hops2]
    exact hops_sub oid hoid
  have h2' : ensure_sessions ⟨d1, d1⟩ df = .ok ⟨d1, d1⟩ := by
    apply es_noop _ _ hbad
    intro k hk
    show d1.sessions.any (fun s => s.Session_ID == k) = true
    rw [hd1sess]
    exact hsess_sub k hk
  have hcheck' : eventsCheck d1.operators d1.sessions (eventRecords df) = true := by
    rw [hd1ops, hd1sess]
    exact hcheck
  have h3' := ie_of_check ⟨d1, d1⟩ df hcheck'
  have hpc' : processChunk ⟨d1, d1⟩ c = .ok (TxDB.commit
      { committed := d1, current :=
        { d1 with
          events := d1.events ++ assignEventIds d1.next_event_id (eventRecords df)
          next_event_id := d1.next_event_id + (eventRecords df).length } },
      (eventRecords df).length) := by
    simp only [processChunk, hdf, h1', h2']
    exact h3'
  have hload := load_single_of_ok d1 c _ _ hpc'
  refine ⟨{ d1 with
      events := d1.events ++ assignEventIds d1.next_event_id (eventRecords df)
      next_event_id := d1.next_event_id + (eventRecords df).length }, ?_, rfl, rfl, ?_⟩
  · rw [hn]
    exact hload
  · show (d1.events ++ assignEventIds d1.next_event_id (eventRecords df)).length
      = d1.events.length + n
    rw [List.length_append, assignEventIds_length, hn]

/-- C2 witness: the re-run theorem instantiated at the fully populated
chunk, after one clean run from the initialized store. -/
theorem C2_witness :
    ∃ d2, load_events_csv dAfterFull [chunkFull] = ⟨none, d2, 1⟩ ∧
      d2.operators = dAfterFull.operators ∧
      d2.sessions = dAfterFull.sessions ∧
      d2.events.length = dAfterFull.events.length + 1 :=
  C2_amended_rerun_duplicates_events dInit dAfterFull chunkFull 1 rfl

/-- Operator-id presence as membership of the projected id list. -/
theorem any_opid_iff (l : List OperatorRow) (oid : String) :
    l.any (fun o => o.Operator_ID == oid) = true ↔
      oid ∈ l.map (fun o => o.Operator_ID) := by
  rw [List.any_eq_true, List.mem_map]
  constructor
  · rintro ⟨o, ho, hbe⟩
    exact ⟨o, ho, beq_iff_eq.mp hbe⟩
  · rintro ⟨o, ho, heq⟩
    exact ⟨o, ho, beq_iff_eq.mpr heq⟩

/-- Session-id presence as membership of the projected id list. -/
theorem any_sid_iff (l : List SessionRow) (k : Int) :
    l.any (fun s => s.Session_ID == k) = true ↔
      k ∈ l.map (fun s => s.Session_ID) := by
  rw [List.any_eq_true, List.mem_map]
  constructor
  · rintro ⟨s, hs, hbe⟩
    exact ⟨s, hs, beq_iff_eq.mp hbe⟩
  · rintro ⟨s, hs, heq⟩
    exact ⟨s, hs, beq_iff_eq.mpr heq⟩

/-- The session id of a derived row is its group key. -/
theorem toSessionRow_sid (df : DataFrame) (k : Int) :
    (toSessionRow (mkAgg df k)).Session_ID = k := rfl

/-- The group keys carry no duplicates. -/
theorem nodup_groupKeys (df : DataFrame) : (groupKeys df).Nodup := by
  rw [groupKeys]
  exact nodup_sortInts _ (nodup_pdUnique _)

/-- The session ids of the derived rows are exactly the group keys. -/
theorem recs_sids (df : DataFrame) :
    (((sessionAggs df).map toSessionRow).map (fun r => r.Session_ID)) = groupKeys df := by
  rw [sessionAggs, List.map_map, List.map_map]
  have hfun : (((fun r : SessionRow => r.Session_ID) ∘ toSessionRow) ∘ mkAgg df) = id :=
    funext (fun k => rfl)
  rw [hfun, List.map_id]

/-- The derived operator of every group is one of the batch's operator ids
(the string "nan" included, when the group's operator cells are all NA). -/
theorem aggOp_mem (df : DataFrame) (k : Int) (hk : k ∈ groupKeys df) :
    cellToStr (mkAgg df k).opCell ∈ operatorIdsOf df := by
  have hne := groupRows_ne_nil df k hk
  obtain ⟨r0, rest, hg⟩ := List.exists_cons_of_ne_nil hne
  have hsub : ∀ r ∈ groupRows df k, r ∈ df.rows := fun r hr => (List.mem_filter.mp hr).1
  show cellToStr (aggFirst ((groupRows df k).map (fun r => cellAt df.cols r "Operator_ID"))) ∈ _
  rw [operatorIdsOf, mem_pdUnique]
  cases hf : (((groupRows df k).map (fun r => cellAt df.cols r "Operator_ID")).filter
      (fun c => c != .na)).head? with
  | none =>
    have hnil : ((groupRows df k).map (fun r => cellAt df.cols r "Operator_ID")).filter
        (fun c => c != .na) = [] := List.head?_eq_none_iff.mp hf
    have hmem : cellAt df.cols r0 "Operator_ID" ∈
        ((groupRows df k).map (fun r => cellAt df.cols r "Operator_ID")) := by
      rw [hg]
      exact List.mem_map_of_mem _ (List.mem_cons_self _ _)
    have hcell : cellAt df.cols r0 "Operator_ID" = .na := by
      rw [List.filter_eq_nil_iff] at hnil
      have hx := hnil _ hmem
      simpa using hx
    have hagg : aggFirst ((groupRows df k).map (fun r => cellAt df.cols r "Operator_ID")) = .na := by
      rw [aggFirst, hf]
      rfl
    rw [hagg, List.mem_map]
    refine ⟨r0, hsub r0 (by rw [hg]; exact List.mem_cons_self _ _), ?_⟩
    rw [hcell]
  | some c =>
    have hagg : aggFirst ((groupRows df k).map (fun r => cellAt df.cols r "Operator_ID")) = c := by
      rw [aggFirst, hf]
      rfl
    rw [hagg]
    have hcmem : c ∈ ((groupRows df k).map (fun r => cellAt df.cols r "Operator_ID")).filter
        (fun c => c != .na) := by
      cases hlist : ((groupRows df k).map (fun r => cellAt df.cols r "Operator_ID")).filter
          (fun c => c != .na) with
      | nil =>
        rw [hlist] at hf
        cases hf
      | cons x xs =>
        rw [hlist] at hf
        injection hf with hx
        rw [← hx]
        exact List.mem_cons_self _ _
    have hcs := List.mem_of_mem_filter hcmem
    rw [List.mem_map] at hcs
    obtain ⟨r, hr, rfl⟩ := hcs
    rw [List.mem_map]
    exact ⟨r, hsub r hr, rfl⟩

/-- Count of an element of a disjoint duplicate-free concatenation. -/
theorem count_append_one {α : Type} [DecidableEq α] (old new : List α) (a : α)
    (hold : old.Nodup) (hnew : new.Nodup)
    (hdisj : ∀ x ∈ new, x ∉ old)
    (hmem : a ∈ old ∨ a ∈ new) :
    (old ++ new).count a = 1 := by
  rw [List.count_append]
  rcases hmem with h | h
  · rw [List.count_eq_one_of_mem hold h, List.count_eq_zero.mpr (fun hc => hdisj a hc h)]
  · rw [List.count_eq_zero.mpr (fun hc => hdisj a h hc), List.count_eq_one_of_mem hnew h]

/-- C6: reconciliation is idempotent — ensure_operators then ensure_sessions
succeed, leaving every pre-existing Operator and Session row untouched (the
tables are extended only by appending), creating missing operators with
rank true, ending with each batch operator id and each session id present
exactly once, and re-running both steps on the reconciled state changes
nothing. -/
theorem C6_reconciliation_idempotent (t : TxDB) (df : DataFrame)
    (hopd : (t.current.operators.map (fun o => o.Operator_ID)).Nodup)
    (hsnd : (t.current.sessions.map (fun s => s.Session_ID)).Nodup)
    (hsd : ∀ a ∈ sessionAggs df, ∃ i, shiftIdOf a.shiftCell = some i ∧
       t.current.shift_defs.any (fun sd => sd.shift_id == i) = true) :
    ∃ t1 t2, ensure_operators t (operatorIdsOf df) = .ok t1 ∧
      ensure_sessions t1 df = .ok t2 ∧
      (∃ newOps, t2.current.operators = t.current.operators ++ newOps ∧
        ∀ o ∈ newOps, o.Operator_Rank = true) ∧
      (∃ newSess, t2.current.sessions = t.current.sessions ++ newSess) ∧
      (∀ oid ∈ operatorIdsOf df,
        (t2.current.operators.map (fun o => o.Operator_ID)).count oid = 1) ∧
      (∀ k ∈ groupKeys df,
        (t2.current.sessions.map (fun s => s.Session_ID)).count k = 1) ∧
      ensure_operators t2 (operatorIdsOf df) = .ok t2 ∧
      ensure_sessions t2 df = .ok t2 := by
  have hnd : (operatorIdsOf df).Nodup := by
    rw [operatorIdsOf]
    exact nodup_pdUnique _
  obtain ⟨t1, h1, hops1, hsess1, hev1, hsd1, hnid1, _⟩ := eo_ok_of_nodup t (operatorIdsOf df) hnd
  have hbad : (sessionAggs df).filter (fun a => (shiftIdOf a.shiftCell).isNone) = [] := by
    rw [List.filter_eq_nil_iff]
    intro a ha hcon
    obtain ⟨i, hi, _⟩ := hsd a ha
    rw [hi] at hcon
    simp at hcon
  set miss := (operatorIdsOf df).filter
    (fun oid => !(t.current.operators.any (fun o => o.Operator_ID == oid))) with hmissdef
  set newOps := miss.map (fun oid => OperatorRow.mk oid true) with hnewopsdef
  have hproj : newOps.map (fun o => o.Operator_ID) = miss := by
    rw [hnewopsdef, List.map_map]
    exact List.map_id _
  have hids1 : t1.current.operators.map (fun o => o.Operator_ID)
      = t.current.operators.map (fun o => o.Operator_ID) ++ miss := by
    rw [hops1, List.map_append, hproj]
  have hmissnd : miss.Nodup := hnd.filter _
  have hdisj : ∀ x ∈ miss, x ∉ t.current.operators.map (fun o => o.Operator_ID) := by
    intro x hx hmem
    rw [hmissdef, List.mem_filter] at hx
    have hx2 := hx.2
    rw [← any_opid_iff] at hmem
    rw [hmem] at hx2
    exact absurd hx2 (by simp)
  have hcountop : ∀ oid ∈ operatorIdsOf df,
      (t1.current.operators.map (fun o => o.Operator_ID)).count oid = 1 := by
    intro oid hoid
    rw [hids1]
    apply count_append_one _ _ _ hopd hmissnd hdisj
    by_cases hp : oid ∈ t.current.operators.map (fun o => o.Operator_ID)
    · exact Or.inl hp
    · refine Or.inr ?_
      rw [hmissdef, List.mem_filter]
      refine ⟨hoid, ?_⟩
      have hfalse : t.current.operators.any (fun o => o.Operator_ID == oid) = false := by
        cases hq : t.current.operators.any (fun o => o.Operator_ID == oid) with
        | false => rfl
        | true =>
          rw [any_opid_iff] at hq
          exact absurd hq hp
      rw [hfalse]
      rfl
  set TI := ((sessionAggs df).map toSessionRow).filter
    (fun r => !(t1.current.sessions.any (fun s => s.Session_ID == r.Session_ID))) with hTIdef
  have hTIids_nodup : (TI.map (fun r => r.Session_ID)).Nodup := by
    have hsubl : List.Sublist (TI.map (fun r => r.Session_ID))
        (((sessionAggs df).map toSessionRow).map (fun r => r.Session_ID)) :=
      List.Sublist.map _ (List.filter_sublist _)
    rw [recs_sids] at hsubl
    exact (nodup_groupKeys df).sublist hsubl
  have hcheck : sessionsCheck t1.current TI = true := by
    rw [sessionsCheck, Bool.and_eq_true]
    constructor
    · rw [distinctB_eq_true_iff]
      exact hTIids_nodup
    · rw [List.all_eq_true]
      intro r hr
      rw [hTIdef, List.mem_filter] at hr
      obtain ⟨hrrecs, hrpred⟩ := hr
      rw [Bool.and_eq_true, Bool.and_eq_true]
      refine ⟨⟨hrpred, ?_⟩, ?_⟩
      · rw [List.mem_map] at hrrecs
        obtain ⟨a, ha, rfl⟩ := hrrecs
        rw [sessionAggs, List.mem_map] at ha
        obtain ⟨k, hk, rfl⟩ := ha
        exact eo_subset t t1 _ h1 _ (aggOp_mem df k hk)
      · rw [List.mem_map] at hrrecs
        obtain ⟨a, ha, rfl⟩ := hrrecs
        obtain ⟨i, hi, hany⟩ := hsd a ha
        have hsid : (toSessionRow a).Shift_ID = i := by
          show (shiftIdOf a.shiftCell).getD 0 = i
          rw [hi]
          rfl
        rw [hsid, hsd1]
        exact hany
  obtain ⟨t2, h2, hsess2, hops2, hev2, hsd2, hnid2, _⟩ := es_insert t1 df hbad hcheck
  rw [← hTIdef] at hsess2
  have hsidlist : t2.current.sessions.map (fun s => s.Session_ID)
      = t.current.sessions.map (fun s => s.Session_ID) ++ TI.map (fun r => r.Session_ID) := by
    rw [hsess2, hsess1, List.map_append]
  have hdisjs : ∀ x ∈ TI.map (fun r => r.Session_ID),
      x ∉ t.current.sessions.map (fun s => s.Session_ID) := by
    intro x hx hmem
    rw [List.mem_map] at hx
    obtain ⟨r, hrTI, rfl⟩ := hx
    rw [hTIdef, List.mem_filter] at hrTI
    have hpred := hrTI.2
    rw [hsess1] at hpred
    rw [← any_sid_iff] at hmem
    rw [hmem] at hpred
    exact absurd hpred (by simp)
  have hcounts : ∀ k ∈ groupKeys df,
      (t2.current.sessions.map (fun s => s.Session_ID)).count k = 1 := by
    intro k hk
    rw [hsidlist]
    apply count_append_one _ _ _ hsnd hTIids_nodup hdisjs
    by_cases hp : k ∈ t.current.sessions.map (fun s => s.Session_ID)
    · exact Or.inl hp
    · refine Or.inr ?_
      rw [List.mem_map]
      refine ⟨toSessionRow (mkAgg df k), ?_, rfl⟩
      rw [hTIdef, List.mem_filter]
      refine ⟨List.mem_map_of_mem _ (List.mem_map_of_mem _ hk), ?_⟩
      have hfalse : t1.current.sessions.any
          (fun s => s.Session_ID == (toSessionRow (mkAgg df k)).Session_ID) = false := by
        rw [hsess1]
        cases hq : t.current.sessions.any
            (fun s => s.Session_ID == (toSessionRow (mkAgg df k)).Session_ID) with
        | false => rfl
        | true =>
          rw [any_sid_iff, toSessionRow_sid] at hq
          exact absurd hq hp
      rw [hfalse]
      rfl
  have hall2op : ∀ oid ∈ operatorIdsOf df,
      t2.current.operators.any (fun o => o.Operator_ID == oid) = true := by
    intro oid hoid
    rw [hops2]
    exact eo_subset t t1 _ h1 oid hoid
  have heo2 := eo_noop t2 _ hall2op
  have hes2 := es_noop t2 df hbad (es_subset t1 t2 df h2)
  refine ⟨t1, t2, h1, h2, ⟨newOps, ?_, ?_⟩, ⟨TI, ?_⟩, ?_, ?_, heo2, hes2⟩
  · rw [hops2, hops1]
  · intro o ho
    rw [hnewopsdef, List.mem_map] at ho
    obtain ⟨oid, _, rfl⟩ := ho
    rfl
  · rw [hsess2, hsess1]
  · intro oid hoid
    rw [hops2]
    exact hcountop oid hoid
  · exact hcounts

/-- C6 witness: the reconciliation theorem instantiated at the initialized
store and the two-row prepared batch. -/
theorem C6_witness :
    ∃ t1 t2, ensure_operators ⟨dInit, dInit⟩ (operatorIdsOf dfPrepared) = .ok t1 ∧
      ensure_sessions t1 dfPrepared = .ok t2 ∧
      (∃ newOps, t2.current.operators = dInit.operators ++ newOps ∧
        ∀ o ∈ newOps, o.Operator_Rank = true) ∧
      (∃ newSess, t2.current.sessions = dInit.sessions ++ newSess) ∧
      (∀ oid ∈ operatorIdsOf dfPrepared,
        (t2.current.operators.map (fun o => o.Operator_ID)).count oid = 1) ∧
      (∀ k ∈ groupKeys dfPrepared,
        (t2.current.sessions.map (fun s => s.Session_ID)).count k = 1) ∧
      ensure_operators t2 (operatorIdsOf dfPrepared) = .ok t2 ∧
      ensure_sessions t2 dfPrepared = .ok t2 :=
  C6_reconciliation_idempotent ⟨dInit, dInit⟩ dfPrepared (by decide) (by decide)
    (by
      intro a ha
      have hrfl : sessionAggs dfPrepared =
          [⟨1, .str "OP1", .str "DAY", .dt 100, .dt 200⟩] := rfl
      rw [hrfl] at ha
      rcases List.mem_cons.mp ha with rfl | hcon
      · exact ⟨1, rfl, rfl⟩
      · exact absurd hcon (List.not_mem_nil a))
